import Mathlib

/-!
Verification of the InTra backend notification scheduler.

This file shallowly embeds the notification-scheduler subsystem of the
InTra travel-planning backend and proves properties of it.  The embedded
code comes from:

* `scripts/notification_scheduler.py` — the scheduler daemon with its three
  rule evaluators (Smart Departure Alerts, Opportunity Alerts, Real-Time
  Weather Tips) and the helper functions `get_travel_time_seconds` and
  `send_expo_push_notification`;
* `services/notification_scheduler.py` — an older variant of the
  smart-alert scheduler kept in the repository;
* `routes/itinerary.py` — the schedule-item creation/update endpoints;
* `app/database/models.py` — the relational data model.

Calendar dates are modelled as day numbers (`Int`), wall-clock times as
minutes after midnight (`Nat`): the zero-padded `HH:MM` strings of the
source compare (as strings) exactly as the corresponding minute counts
compare (as numbers).  External HTTP services (geo directions, places
search, weather forecast, push gateway) are modelled as oracle functions
supplied in an environment record, covering every response shape the
source distinguishes, including failures and malformed responses.
-/

set_option linter.unusedVariables false

namespace InTra

/-! ### Data model (from `app/database/models.py`) -/

/-- a user row: push token, opt-in flags, activity preferences. -/
structure User where
  id : Nat
  email : String
  fcmToken : Option String
  allowSmartAlerts : Bool
  allowOpportunityAlerts : Bool
  allowRealTimeTips : Bool
  preferredActivities : Option (List String)
deriving DecidableEq, Repr

/-- an itinerary row: owner and inclusive date window. -/
structure Itinerary where
  id : Nat
  userId : Nat
  startDate : Int
  endDate : Int
deriving DecidableEq, Repr

/-- a schedule-item row: one planned visit, with the `notification_sent`
idempotency flag (default `false` at creation). -/
structure ScheduleItem where
  id : Nat
  itineraryId : Nat
  placeId : String
  placeName : String
  placeType : Option String
  scheduledDate : Int
  scheduledTime : Nat
  notificationSent : Bool
deriving DecidableEq, Repr

/-- a sent-opportunity row: the durable fact that a place was already
suggested to a user. -/
structure SentOpportunity where
  userId : Nat
  placeId : String
deriving DecidableEq, Repr

/-- an in-app notification row. -/
structure NotificationRow where
  userId : Nat
  title : String
  body : String
deriving DecidableEq, Repr

/-- the relational store holding the five entity tables. -/
structure DB where
  users : List User
  itineraries : List Itinerary
  scheduleItems : List ScheduleItem
  sentOpportunities : List SentOpportunity
  notifications : List NotificationRow
deriving DecidableEq, Repr

/-! ### Pushes and external-service responses -/

/-- the opaque data payload attached to a push. -/
inductive PushData where
  | itineraryItem (itineraryId itemId : Nat)
  | place (placeId : String)
deriving DecidableEq, Repr

/-- one push message handed to the Expo gateway. -/
structure Push where
  token : String
  title : String
  body : String
  payload : PushData
deriving DecidableEq, Repr

/-- the current instant: calendar day plus minute of the day. -/
structure Now where
  date : Int
  minute : Nat
deriving DecidableEq, Repr

/-- absolute minute count of an instant. -/
def Now.abs (n : Now) : Int := n.date * 1440 + n.minute

/-- absolute minute count of the planned date and time of a schedule item. -/
def itemAbs (it : ScheduleItem) : Int := it.scheduledDate * 1440 + it.scheduledTime

/-- a Google Directions response as the source distinguishes it: a failed
request (network error, non-2xx status or malformed JSON, all caught by the
same handler), or a parsed body with its `status` field and, when present,
the nested `routes[0].legs[0].duration.value` field. -/
inductive GeoResponse where
  | failure
  | parsed (status : String) (durationValue : Option Nat)
deriving DecidableEq, Repr

/-- travel-time helper from `scripts/notification_scheduler.py`
(`get_travel_time_seconds`): without an API key, or on a failed call, a
non-`OK` status, or a body missing the duration field, it returns the
default of 15 minutes in seconds. -/
def get_travel_time_seconds (apiKey : Option String) (resp : GeoResponse) : Nat :=
  match apiKey with
  | none => 15 * 60
  | some _ =>
    match resp with
    | .failure => 15 * 60
    | .parsed status durationValue =>
      if status = "OK" then
        match durationValue with
        | some d => d
        | none => 15 * 60
      else 15 * 60

/-- the outcome of handing one push to the Expo gateway. -/
inductive PushResult where
  | delivered
  | httpStatusError (code : Nat)
  | requestError
deriving DecidableEq, Repr

/-- push helper (`send_expo_push_notification`): it catches both
`httpx.HTTPStatusError` and `httpx.RequestError`, logging them, so it
returns normally on every outcome and never propagates an error to the
calling rule. -/
def send_expo_push_notification (result : PushResult) : Except String Unit :=
  match result with
  | .delivered => .ok ()
  | .httpStatusError _ => .ok ()
  | .requestError => .ok ()

/-! ### Row lookups (the ORM relationship accessors) -/

/-- look up an itinerary row by id. -/
def findItinerary (db : DB) (iid : Nat) : Option Itinerary :=
  db.itineraries.find? (fun it => it.id == iid)

/-- look up a user row by id. -/
def findUser (db : DB) (uid : Nat) : Option User :=
  db.users.find? (fun u => u.id == uid)

/-- the user owning a schedule item (`item.itinerary.user`). -/
def itemUser (db : DB) (item : ScheduleItem) : Option User :=
  (findItinerary db item.itineraryId).bind (fun it => findUser db it.userId)

/-! ### Smart Departure Alert rule (`check_and_send_smart_alerts`) -/

/-- the WHERE clause of the smart-alert query: item scheduled today, not yet
notified, owned (through its itinerary) by a user with a push token and
`allow_smart_alerts` on. -/
def smartQueryPred (db : DB) (today : Int) (item : ScheduleItem) : Bool :=
  item.scheduledDate == today &&
  item.notificationSent == false &&
  (match itemUser db item with
   | some u => u.fcmToken.isSome && u.allowSmartAlerts
   | none => false)

/-- the 90-minute look-ahead test of the smart-alert loop, comparing
times-of-day: `now.time() <= item_time <= (now + 90 minutes).time()`.
Adding 90 minutes to the instant and taking its time-of-day wraps at
midnight, hence the `% 1440`. -/
def smartWindowOk (nowMinute : Nat) (itemTime : Nat) : Bool :=
  decide (nowMinute ≤ itemTime) && decide (itemTime ≤ (nowMinute + 90) % 1440)

/-- set the `notification_sent` flag of the item with the given id. -/
def setNotified (db : DB) (itemId : Nat) : DB :=
  { db with scheduleItems := db.scheduleItems.map (fun it =>
      if it.id == itemId then { it with notificationSent := true } else it) }

/-- the external world as the smart-alert rule sees it: the configured API
key, the directions service, and the push gateway. -/
structure SmartEnv where
  apiKey : Option String
  geo : String → GeoResponse
  delivery : Push → PushResult

/-- travel time in whole minutes for an item, through the directions
oracle. -/
def travelMinutes (env : SmartEnv) (item : ScheduleItem) : Nat :=
  get_travel_time_seconds env.apiKey (env.geo item.placeId) / 60

/-- the notification instant of an item: its scheduled instant minus travel
time plus the fixed 10-minute buffer. -/
def notifyAt (env : SmartEnv) (item : ScheduleItem) : Int :=
  itemAbs item - (travelMinutes env item + 10)

/-- the departure push built for an item and its user. -/
def smartPush (env : SmartEnv) (user : User) (item : ScheduleItem) : Push :=
  { token := user.fcmToken.getD ""
    title := "Time for " ++ item.placeName
    body := "Time to head out! It is a " ++ toString (travelMinutes env item) ++
      "-minute ride. Tap for directions."
    payload := .itineraryItem item.itineraryId item.id }

/-- body of the `for item in upcoming_items` loop of
`check_and_send_smart_alerts`: skip items outside the look-ahead window,
compute travel time (with fallback), derive the notification instant, and
once it has arrived send the push, set the flag and commit.  `db0` is the
session snapshot the preloaded user rows come from. -/
def smartItemStep (env : SmartEnv) (db0 : DB) (now : Now)
    (acc : DB × List Push) (item : ScheduleItem) : DB × List Push :=
  if smartWindowOk now.minute item.scheduledTime then
    match itemUser db0 item with
    | none => acc
    | some user =>
      if now.abs ≥ notifyAt env item then
        match send_expo_push_notification (env.delivery (smartPush env user item)) with
        | .ok _ => (setNotified acc.1 item.id, acc.2 ++ [smartPush env user item])
        | .error _ => acc
      else acc
  else acc

/-- the Smart Departure Alert rule (`check_and_send_smart_alerts` in
`scripts/notification_scheduler.py`): query the eligible items, then run the
per-item loop.  Returns the committed store and the pushes sent. -/
def check_and_send_smart_alerts (env : SmartEnv) (now : Now) (db : DB) :
    DB × List Push :=
  (db.scheduleItems.filter (smartQueryPred db now.date)).foldl
    (smartItemStep env db now) (db, [])

/-- the WHERE clause of the legacy smart-alert query in
`services/notification_scheduler.py`: item scheduled today, not yet
notified, user has a push token — with no opt-in flag condition (the older
schema in `database/db.py` has no `allow_smart_alerts` column at all). -/
def legacySmartQueryPred (db : DB) (today : Int) (item : ScheduleItem) : Bool :=
  item.scheduledDate == today &&
  item.notificationSent == false &&
  (match itemUser db item with
   | some u => u.fcmToken.isSome
   | none => false)

/-- the legacy smart-alert rule (`check_and_send_smart_alerts` in
`services/notification_scheduler.py`): identical loop body, but the query
has no opt-in filter. -/
def legacy_check_and_send_smart_alerts (env : SmartEnv) (now : Now) (db : DB) :
    DB × List Push :=
  (db.scheduleItems.filter (legacySmartQueryPred db now.date)).foldl
    (smartItemStep env db now) (db, [])

/-! ### Opportunity Alert rule (`check_for_opportunities`) -/

/-- a coordinate pair as returned by the place-details service. -/
structure Coords where
  lat : Int
  lng : Int
deriving DecidableEq, Repr

/-- one candidate from the places text search, with its optional rating
(`p.get` with default 0 treats a missing rating as 0). -/
structure Place where
  placeId : String
  name : String
  rating : Option ℚ
deriving DecidableEq, Repr

/-- the rating used for sorting and the quality floor: the field when
present, otherwise 0. -/
def ratingOf (p : Place) : ℚ := p.rating.getD 0

/-- the fixed quality floor 4.5 of the opportunity rule. -/
def qualityFloor : ℚ := Rat.mk' 9 2

/-- an HTTP reply of the places text search: status code and parsed
`results` list (missing `results` is the empty list). -/
structure SearchReply where
  statusCode : Nat
  results : List Place
deriving DecidableEq, Repr

/-- the external world as the opportunity rule sees it: place-details
coordinates (`_get_place_coordinates`, `none` on failure), the places text
search, and the push gateway. -/
structure OppEnv where
  coords : String → Option Coords
  textSearch : List String → Coords → SearchReply
  delivery : Push → PushResult

/-- the user filter of the opportunity rule: opted in, has a push token,
and today falls in the inclusive date window of some itinerary. -/
def oppEligibleUser (db : DB) (today : Int) (u : User) : Bool :=
  u.allowOpportunityAlerts && u.fcmToken.isSome &&
  db.itineraries.any (fun it =>
    it.userId == u.id && decide (it.startDate ≤ today) && decide (today ≤ it.endDate))

/-- whether a schedule item belongs to one of the itineraries of the given user
(`ScheduleItem.itinerary.has(user_id=...)`). -/
def isUserItem (db : DB) (uid : Nat) (s : ScheduleItem) : Bool :=
  match findItinerary db s.itineraryId with
  | some it => it.userId == uid
  | none => false

/-- the earliest-scheduled item of the user today (`order_by scheduled_time`,
`limit 1`). -/
def firstItemToday (db : DB) (uid : Nat) (today : Int) : Option ScheduleItem :=
  (db.scheduleItems.filter (fun s => isUserItem db uid s && s.scheduledDate == today)).foldl
    (fun acc s =>
      match acc with
      | none => some s
      | some t => if s.scheduledTime < t.scheduledTime then some s else some t)
    none

/-- the exclusion set: place ids already sent to this user as opportunities,
plus place ids anywhere in the itineraries of the user. -/
def seenPlaceIds (db : DB) (uid : Nat) : List String :=
  (db.sentOpportunities.filter (fun s => s.userId == uid)).map (fun s => s.placeId) ++
  (db.scheduleItems.filter (isUserItem db uid)).map (fun s => s.placeId)

/-- the text-search terms: the preferred activities of the user, or the generic
fallback when the preference is null or empty. -/
def searchTerms (u : User) : List String :=
  match u.preferredActivities with
  | some (a :: rest) => a :: rest
  | _ => ["tourist_attraction"]

/-- the rating-descending order used by `sorted(..., reverse=True)`. -/
def ratingDescRel (a b : Place) : Prop := ratingOf b ≤ ratingOf a

instance : DecidableRel ratingDescRel :=
  fun a b => inferInstanceAs (Decidable (ratingOf b ≤ ratingOf a))

/-- stable rating-descending sort of the candidates, as the stable Python
`sorted` with `reverse=True` produces. -/
def sortPlacesDesc (ps : List Place) : List Place :=
  List.insertionSort ratingDescRel ps

/-- the candidate filter: not in the exclusion set and rated at least the
quality floor. -/
def opportunityPred (seen : List String) (p : Place) : Bool :=
  !(seen.contains p.placeId) && decide (qualityFloor ≤ ratingOf p)

/-- the chosen opportunity: the first candidate of the rating-descending
sort that is outside the exclusion set and at or above the quality floor. -/
def bestOpportunity (ps : List Place) (seen : List String) : Option Place :=
  (sortPlacesDesc ps).find? (opportunityPred seen)

/-- the title of an opportunity push. -/
def oppTitle : String := "✨ Opportunity Nearby!"

/-- the body of an opportunity push for the chosen place. -/
def oppBody (pl : Place) : String :=
  "A highly-rated spot, " ++ pl.name ++ ", is near your current plans. Tap to see more."

/-- the opportunity push built for a user and the chosen place. -/
def oppPush (user : User) (pl : Place) : Push :=
  { token := user.fcmToken.getD "", title := oppTitle, body := oppBody pl
    payload := .place pl.placeId }

/-- body of the `for user in users_on_trip` loop of
`check_for_opportunities`: locate the first item today, resolve
coordinates, search nearby places, build the exclusion set, pick the best
candidate, and on success send the push and persist the notification row
and the sent-opportunity row in one commit. -/
def opportunityUserStep (env : OppEnv) (today : Int)
    (acc : DB × List Push) (user : User) : DB × List Push :=
  match firstItemToday acc.1 user.id today with
  | none => acc
  | some firstItem =>
    match env.coords firstItem.placeId with
    | none => acc
    | some c =>
      if (env.textSearch (searchTerms user) c).statusCode ≠ 200 then acc
      else
        match bestOpportunity (env.textSearch (searchTerms user) c).results
            (seenPlaceIds acc.1 user.id) with
        | none => acc
        | some best =>
          match send_expo_push_notification (env.delivery (oppPush user best)) with
          | .ok _ =>
            ({ acc.1 with
                notifications := acc.1.notifications ++
                  [{ userId := user.id, title := oppTitle, body := oppBody best }]
                sentOpportunities := acc.1.sentOpportunities ++
                  [{ userId := user.id, placeId := best.placeId }] },
             acc.2 ++ [oppPush user best])
          | .error _ => acc

/-- the Opportunity Alert rule (`check_for_opportunities`): query the users
on an active trip, then run the per-user loop. -/
def check_for_opportunities (env : OppEnv) (today : Int) (db : DB) :
    DB × List Push :=
  (db.users.filter (oppEligibleUser db today)).foldl
    (opportunityUserStep env today) (db, [])

/-! ### Real-Time Weather Tip rule (`check_for_real_time_tips`) -/

/-- the outdoor tag set of the weather-tip rule. -/
def outdoorTypes : List String := ["park", "zoo", "natural_feature", "tourist_attraction", "hiking"]

/-- whether `pat` occurs as a contiguous substring of `s` (character
lists). -/
def listIsInfix (pat : List Char) : List Char → Bool
  | [] => pat.isEmpty
  | c :: t => pat.isPrefixOf (c :: t) || listIsInfix pat t

/-- SQL case-insensitive pattern containment: case-insensitive substring test. -/
def ilike (s pat : String) : Bool :=
  listIsInfix (pat.data.map Char.toLower) (s.data.map Char.toLower)

/-- the WHERE clause of the weather-tip query: opted-in user with a push
token, item scheduled today with its `HH:MM` time between now and now plus
six hours (string comparison of zero-padded times, so the upper bound is
the time-of-day of `now + 6h`, wrapping at midnight), and — as the source
writes it with `and_` — a place type matching EVERY outdoor tag at once. -/
def weatherQueryPred (db : DB) (now : Now) (item : ScheduleItem) : Bool :=
  (match itemUser db item with
   | some u => u.allowRealTimeTips && u.fcmToken.isSome
   | none => false) &&
  item.scheduledDate == now.date &&
  decide (now.minute ≤ item.scheduledTime) &&
  decide (item.scheduledTime ≤ (now.minute + 360) % 1440) &&
  outdoorTypes.all (fun ot =>
    match item.placeType with
    | some pt => ilike pt ot
    | none => false)

/-- one hourly forecast entry: its instant (absolute minutes) and free-text
description. -/
structure HourlyForecast where
  timeAbs : Int
  description : String
deriving DecidableEq, Repr

/-- the external world as the weather-tip rule sees it: coordinates lookup,
hourly forecast (`none` on failure), indoor-alternative search, and the
push gateway. -/
structure WeatherEnv where
  coords : String → Option Coords
  forecast : Coords → Option (List HourlyForecast)
  altSearch : Coords → SearchReply
  delivery : Push → PushResult

/-- rain test: some forecast entry within two hours (7200 seconds) of the
instant of the item mentions rain (case-insensitive substring). -/
def rainImminent (forecasts : List HourlyForecast) (itemInstant : Int) : Bool :=
  forecasts.any (fun hf =>
    decide ((hf.timeAbs - itemInstant).natAbs * 60 < 7200) &&
    listIsInfix "rain".data (hf.description.data.map Char.toLower))

/-- the title of a weather-tip push. -/
def rainTitle : String := "☔️ Heads Up: Rain Expected!"

/-- the body of a weather-tip push for an item and the indoor
alternative. -/
def rainBody (item : ScheduleItem) (alt : Place) : String :=
  "Rain is in the forecast for your visit to " ++ item.placeName ++
  ". Maybe check out " ++ alt.name ++ " instead?"

/-- the weather-tip push built for a user, an item and the alternative. -/
def rainPush (user : User) (item : ScheduleItem) (alt : Place) : Push :=
  { token := user.fcmToken.getD "", title := rainTitle, body := rainBody item alt
    payload := .place alt.placeId }

/-- body of the `for item in outdoor_items` loop of
`check_for_real_time_tips`: resolve coordinates, fetch the forecast, and if
rain is imminent find an indoor alternative and send a push, persisting a
notification row.  There is no per-item idempotency marker. -/
def weatherItemStep (env : WeatherEnv) (db0 : DB) (now : Now)
    (acc : DB × List Push) (item : ScheduleItem) : DB × List Push :=
  match env.coords item.placeId with
  | none => acc
  | some c =>
    match env.forecast c with
    | none => acc
    | some forecasts =>
      if forecasts.isEmpty then acc
      else
        if rainImminent forecasts (now.date * 1440 + item.scheduledTime) then
          if (env.altSearch c).statusCode ≠ 200 then acc
          else
            match (env.altSearch c).results with
            | [] => acc
            | alt :: _ =>
              match itemUser db0 item with
              | none => acc
              | some user =>
                match send_expo_push_notification (env.delivery (rainPush user item alt)) with
                | .ok _ =>
                  ({ acc.1 with notifications := acc.1.notifications ++
                      [{ userId := user.id, title := rainTitle, body := rainBody item alt }] },
                   acc.2 ++ [rainPush user item alt])
                | .error _ => acc
        else acc

/-- the Real-Time Weather Tip rule (`check_for_real_time_tips`): query the
outdoor items in the forward window, then run the per-item loop. -/
def check_for_real_time_tips (env : WeatherEnv) (now : Now) (db : DB) :
    DB × List Push :=
  (db.scheduleItems.filter (weatherQueryPred db now)).foldl
    (weatherItemStep env db now) (db, [])

/-! ### The scheduler loop (`main_scheduler_loop`) -/

/-- one rule evaluation as the loop observes it: the committed store, the
pushes sent, and — when the evaluation raised — the exception.  Everything
committed before the raise survives it. -/
def Rule := DB → DB × List Push × Option String

/-- wrap a total rule evaluation as a `Rule` that never raises. -/
def liftRule (f : DB → DB × List Push) : Rule :=
  fun db => ((f db).1, (f db).2, none)

/-- a rule evaluation whose first database query raises, committing
nothing. -/
def failingRule (msg : String) : Rule :=
  fun db => (db, [], some msg)

/-- one cycle of `main_scheduler_loop`: the three rules run in fixed
sequence inside a single `try` block whose `except` catches and logs any
exception, so a raise in one rule ends the cycle there. -/
def runCycle (r1 r2 r3 : Rule) (db : DB) : DB × List Push :=
  match r1 db with
  | (db1, p1, some _) => (db1, p1)
  | (db1, p1, none) =>
    match r2 db1 with
    | (db2, p2, some _) => (db2, p1 ++ p2)
    | (db2, p2, none) =>
      match r3 db2 with
      | (db3, p3, _) => (db3, p1 ++ p2 ++ p3)

/-- the scheduler loop run for a given number of cycles, accumulating the
pushes of every cycle. -/
def runLoopN (r1 r2 r3 : Rule) : Nat → DB → DB × List Push
  | 0, db => (db, [])
  | n + 1, db =>
    ((runLoopN r1 r2 r3 n (runCycle r1 r2 r3 db).1).1,
     (runCycle r1 r2 r3 db).2 ++ (runLoopN r1 r2 r3 n (runCycle r1 r2 r3 db).1).2)

/-! ### Itinerary routes (`routes/itinerary.py`) -/

/-- the request body of the add-item endpoint; `scheduledDate` is `none`
when the date string does not parse. -/
structure ScheduleItemCreate where
  placeId : String
  placeName : String
  placeType : Option String
  scheduledDate : Option Int
  scheduledTime : Nat
deriving DecidableEq, Repr

/-- the request body of the update-item endpoint. -/
structure ScheduleItemUpdate where
  scheduledDate : Int
  scheduledTime : Nat
deriving DecidableEq, Repr

/-- the HTTP error classes the modelled endpoints raise. -/
inductive ApiError where
  | notFound
  | forbidden
  | badRequest
  | serverError
deriving DecidableEq, Repr

instance : DecidableEq (Except ApiError DB) := fun x y =>
  match x, y with
  | .ok a, .ok b =>
    if h : a = b then isTrue (by rw [h]) else isFalse (fun hc => by cases hc; exact h rfl)
  | .error e, .error f =>
    if h : e = f then isTrue (by rw [h]) else isFalse (fun hc => by cases hc; exact h rfl)
  | .ok _, .error _ => isFalse (fun hc => by cases hc)
  | .error _, .ok _ => isFalse (fun hc => by cases hc)

/-- a fresh schedule-item id: one past the largest stored id. -/
def freshItemId (db : DB) : Nat :=
  db.scheduleItems.foldl (fun m it => max m it.id) 0 + 1

/-- a fresh itinerary id: one past the largest stored id. -/
def freshItineraryId (db : DB) : Nat :=
  db.itineraries.foldl (fun m it => max m it.id) 0 + 1

/-- the add-item endpoint (`add_schedule_item_to_itinerary`): 404 when the
itinerary is missing or not owned, 400 when the date does not parse, 400
when the date is outside the inclusive window of the itinerary, otherwise the
item is inserted with `notification_sent` at its default `false`. -/
def add_schedule_item_to_itinerary (db : DB) (currentUserId : Nat)
    (itineraryId : Nat) (item : ScheduleItemCreate) : Except ApiError DB :=
  match db.itineraries.find? (fun it => it.id == itineraryId && it.userId == currentUserId) with
  | none => .error .notFound
  | some itin =>
    match item.scheduledDate with
    | none => .error .badRequest
    | some d =>
      if itin.startDate ≤ d ∧ d ≤ itin.endDate then
        .ok { db with scheduleItems := db.scheduleItems ++
          [{ id := freshItemId db, itineraryId := itineraryId, placeId := item.placeId
             placeName := item.placeName, placeType := item.placeType
             scheduledDate := d, scheduledTime := item.scheduledTime
             notificationSent := false }] }
      else .error .badRequest

/-- the update-item endpoint (`update_schedule_item`): 404 when the item is
missing, 403 when not owned, 400 when the new date is outside the
inclusive window of the itinerary, otherwise the date and time are updated
(the `notification_sent` flag is untouched). -/
def update_schedule_item (db : DB) (currentUserId : Nat) (itemId : Nat)
    (upd : ScheduleItemUpdate) : Except ApiError DB :=
  match db.scheduleItems.find? (fun s => s.id == itemId) with
  | none => .error .notFound
  | some item =>
    match findItinerary db item.itineraryId with
    | none => .error .notFound
    | some itin =>
      if itin.userId ≠ currentUserId then .error .forbidden
      else if itin.startDate ≤ upd.scheduledDate ∧ upd.scheduledDate ≤ itin.endDate then
        .ok { db with scheduleItems := db.scheduleItems.map (fun s =>
          if s.id == itemId then
            { s with scheduledDate := upd.scheduledDate, scheduledTime := upd.scheduledTime }
          else s) }
      else .error .badRequest

/-- the delete-item endpoint (`delete_schedule_item`). -/
def delete_schedule_item (db : DB) (currentUserId : Nat) (itemId : Nat) :
    Except ApiError DB :=
  match db.scheduleItems.find? (fun s => s.id == itemId) with
  | none => .error .notFound
  | some item =>
    match db.itineraries.find? (fun it => it.id == item.itineraryId && it.userId == currentUserId) with
    | none => .error .forbidden
    | some _ =>
      .ok { db with scheduleItems := db.scheduleItems.filter (fun s => !(s.id == itemId)) }

/-- the request body of the itinerary-creation endpoints. -/
structure ItineraryCreate where
  name : String
  budget : Option String
  startDate : Int
  endDate : Int
deriving DecidableEq, Repr

/-- the delete-itinerary endpoint (`delete_itinerary`): the itinerary and,
by cascade, its schedule items are removed. -/
def delete_itinerary (db : DB) (currentUserId : Nat) (itineraryId : Nat) :
    Except ApiError DB :=
  match db.itineraries.find? (fun it => it.id == itineraryId && it.userId == currentUserId) with
  | none => .error .notFound
  | some _ =>
    .ok { db with
      itineraries := db.itineraries.filter (fun it => !(it.id == itineraryId))
      scheduleItems := db.scheduleItems.filter (fun s => !(s.itineraryId == itineraryId)) }

/-- the manual itinerary-creation endpoint (`create_itinerary`): inserts an
empty itinerary with the requested window. -/
def create_itinerary (db : DB) (currentUserId : Nat) (d : ItineraryCreate) : DB :=
  { db with itineraries := db.itineraries ++
      [{ id := freshItineraryId db, userId := currentUserId
         startDate := d.startDate, endDate := d.endDate }] }

/-- one schedule item as the generative model proposed it; an absent field
or an unparseable date is `none`. -/
structure GeneratedItem where
  placeId : String
  scheduledDate : Option Int
  scheduledTime : Option Nat
deriving DecidableEq, Repr

/-- a place known to the recommendation lookup (`all_places_map`). -/
structure PlaceDetails where
  id : String
  name : String
  types : List String
deriving DecidableEq, Repr

/-- look up a proposed place id in `all_places_map`. -/
def lookupPlace (placesMap : List PlaceDetails) (pid : String) : Option PlaceDetails :=
  placesMap.find? (fun p => p.id == pid)

/-- parse one generated item as the generate endpoint does: skip unknown
place ids and missing or unparseable fields; the scheduled date is stored
as parsed, with no comparison against the itinerary window. -/
def parseGeneratedItem (placesMap : List PlaceDetails) (itineraryId : Nat)
    (freshId : Nat) (item : GeneratedItem) : Option ScheduleItem :=
  match lookupPlace placesMap item.placeId with
  | none => none
  | some pd =>
    match item.scheduledDate, item.scheduledTime with
    | some d, some t =>
      some { id := freshId, itineraryId := itineraryId, placeId := pd.id
             placeName := pd.name
             placeType := some (pd.types.headD "attraction")
             scheduledDate := d, scheduledTime := t, notificationSent := false }
    | _, _ => none

/-- one step of assembling the valid generated items, carrying the next
fresh id. -/
def genStep (placesMap : List PlaceDetails) (itineraryId : Nat)
    (acc : List ScheduleItem × Nat) (g : GeneratedItem) : List ScheduleItem × Nat :=
  match parseGeneratedItem placesMap itineraryId acc.2 g with
  | some s => (acc.1 ++ [s], acc.2 + 1)
  | none => acc

/-- the valid generated items with sequential fresh ids. -/
def buildGeneratedItems (placesMap : List PlaceDetails) (itineraryId : Nat)
    (firstId : Nat) (items : List GeneratedItem) : List ScheduleItem :=
  (items.foldl (genStep placesMap itineraryId) ([], firstId)).1

/-- the auto-generate endpoint (`generate_itinerary`): 500 when the model
returned nothing or every item was invalid; otherwise the itinerary and the
valid items are committed.  The per-item validation checks only that the
place id is known and the fields parse — the itinerary date window is
never compared against the items. -/
def generate_itinerary (db : DB) (currentUserId : Nat)
    (itineraryData : ItineraryCreate) (generatedItems : List GeneratedItem)
    (placesMap : List PlaceDetails) : Except ApiError DB :=
  if generatedItems.isEmpty then .error .serverError
  else
    if (buildGeneratedItems placesMap (freshItineraryId db) (freshItemId db)
        generatedItems).isEmpty then .error .serverError
    else .ok { db with
      itineraries := db.itineraries ++
        [{ id := freshItineraryId db, userId := currentUserId
           startDate := itineraryData.startDate, endDate := itineraryData.endDate }]
      scheduleItems := db.scheduleItems ++
        buildGeneratedItems placesMap (freshItineraryId db) (freshItemId db) generatedItems }

/-! ### The operations of the system, as one type -/

/-- every modelled state-changing operation of the system: the three rule
evaluators (plus the legacy smart-alert variant) and the itinerary
endpoints. -/
inductive Operation where
  | smartAlerts (env : SmartEnv) (now : Now)
  | legacySmartAlerts (env : SmartEnv) (now : Now)
  | opportunities (env : OppEnv) (today : Int)
  | realTimeTips (env : WeatherEnv) (now : Now)
  | addItem (uid iid : Nat) (item : ScheduleItemCreate)
  | updateItem (uid itemId : Nat) (upd : ScheduleItemUpdate)
  | deleteItem (uid itemId : Nat)
  | createItin (uid : Nat) (d : ItineraryCreate)
  | generateItin (uid : Nat) (d : ItineraryCreate)
      (g : List GeneratedItem) (pm : List PlaceDetails)
  | deleteItin (uid iid : Nat)

/-- the store after an operation; a rejected endpoint call rolls back and
leaves the store unchanged. -/
def applyOperation (op : Operation) (db : DB) : DB :=
  match op with
  | .smartAlerts env now => (check_and_send_smart_alerts env now db).1
  | .legacySmartAlerts env now => (legacy_check_and_send_smart_alerts env now db).1
  | .opportunities env today => (check_for_opportunities env today db).1
  | .realTimeTips env now => (check_for_real_time_tips env now db).1
  | .addItem uid iid item =>
    match add_schedule_item_to_itinerary db uid iid item with
    | .ok db2 => db2
    | .error _ => db
  | .updateItem uid itemId upd =>
    match update_schedule_item db uid itemId upd with
    | .ok db2 => db2
    | .error _ => db
  | .deleteItem uid itemId =>
    match delete_schedule_item db uid itemId with
    | .ok db2 => db2
    | .error _ => db
  | .createItin uid d => create_itinerary db uid d
  | .generateItin uid d g pm =>
    match generate_itinerary db uid d g pm with
    | .ok db2 => db2
    | .error _ => db
  | .deleteItin uid iid =>
    match delete_itinerary db uid iid with
    | .ok db2 => db2
    | .error _ => db

/-- whether the operation is an Opportunity Alert evaluation — the only
operation that writes `sent_opportunities` rows. -/
def isOpportunityOp : Operation → Bool
  | .opportunities _ _ => true
  | _ => false

/-- the pushes among `ps` whose payload names the given schedule item. -/
def pushesForItem (itemId : Nat) (ps : List Push) : List Push :=
  ps.filter (fun p =>
    match p.payload with
    | .itineraryItem _ j => j == itemId
    | .place _ => false)

/-- run the Smart Departure rule once per entry of `runs` (each run with
its own environment and clock), accumulating the pushes. -/
def runSmartMany : List (SmartEnv × Now) → DB → DB × List Push
  | [], db => (db, [])
  | en :: rest, db =>
    let r := check_and_send_smart_alerts en.1 en.2 db
    let r2 := runSmartMany rest r.1
    (r2.1, r.2 ++ r2.2)

/-- primary-key well-formedness: schedule-item ids are pairwise distinct. -/
def itemIdsNodup (db : DB) : Prop :=
  db.scheduleItems.Pairwise (fun a b => a.id ≠ b.id)

instance (db : DB) : Decidable (itemIdsNodup db) :=
  inferInstanceAs (Decidable (List.Pairwise _ _))

/-! ### Concrete stores, environments and requests used in the proofs -/

/-- an opted-in user with a push token. -/
def userA : User :=
  { id := 1, email := "a@example.com", fcmToken := some "tokA"
    allowSmartAlerts := true, allowOpportunityAlerts := true
    allowRealTimeTips := true, preferredActivities := none }

/-- an itinerary of `userA` covering days 10 to 12. -/
def itinA : Itinerary := { id := 1, userId := 1, startDate := 10, endDate := 12 }

/-- a schedule item of `itinA` on day 10 at 12:20 (minute 740). -/
def itemA : ScheduleItem :=
  { id := 1, itineraryId := 1, placeId := "plA", placeName := "Louvre"
    placeType := some "park", scheduledDate := 10, scheduledTime := 740
    notificationSent := false }

/-- a store holding `userA`, `itinA`, `itemA` and one previously sent
opportunity. -/
def dbA : DB :=
  { users := [userA], itineraries := [itinA], scheduleItems := [itemA]
    sentOpportunities := [{ userId := 1, placeId := "plOld" }], notifications := [] }

/-- a smart-alert environment with no API key (so the travel-time default
applies) and a healthy push gateway. -/
def envA : SmartEnv :=
  { apiKey := none, geo := fun _ => .failure, delivery := fun _ => .delivered }

/-- `itemA` already notified, under a distinct id. -/
def itemDone : ScheduleItem := { itemA with id := 2, notificationSent := true }

/-- a store whose only item is already notified. -/
def dbDone : DB := { dbA with scheduleItems := [itemDone] }

/-- `itemA` rescheduled to 23:00 (minute 1380). -/
def itemLate : ScheduleItem := { itemA with scheduledTime := 1380 }

/-- a store whose only item is scheduled at 23:00 today. -/
def dbLate : DB := { dbA with scheduleItems := [itemLate] }

/-- a highly-rated (4.6) nearby place unknown to `dbA`. -/
def gemPlace : Place := { placeId := "plX", name := "Gem", rating := some (Rat.mk' 23 5) }

/-- an opportunity environment that resolves coordinates and finds
`gemPlace`. -/
def envOppA : OppEnv :=
  { coords := fun _ => some { lat := 1, lng := 2 }
    textSearch := fun _ _ => { statusCode := 200, results := [gemPlace] }
    delivery := fun _ => .delivered }

/-- a weather environment whose coordinate lookup always fails. -/
def envWA : WeatherEnv :=
  { coords := fun _ => none, forecast := fun _ => none
    altSearch := fun _ => { statusCode := 404, results := [] }
    delivery := fun _ => .delivered }

/-- an opted-out user (all three flags off) with a push token. -/
def userOff : User :=
  { id := 2, email := "off@example.com", fcmToken := some "tokOff"
    allowSmartAlerts := false, allowOpportunityAlerts := false
    allowRealTimeTips := false, preferredActivities := none }

/-- an itinerary of `userOff` covering days 10 to 12. -/
def itinOff : Itinerary := { id := 2, userId := 2, startDate := 10, endDate := 12 }

/-- a schedule item of `itinOff` on day 10 at minute 740. -/
def itemOff : ScheduleItem :=
  { id := 2, itineraryId := 2, placeId := "plB", placeName := "Tower"
    placeType := some "tourist_attraction", scheduledDate := 10, scheduledTime := 740
    notificationSent := false }

/-- a store holding only the opted-out user and their item. -/
def dbOff : DB :=
  { users := [userOff], itineraries := [itinOff], scheduleItems := [itemOff]
    sentOpportunities := [], notifications := [] }

/-- `dbOff` after the legacy smart-alert run marked the item notified. -/
def dbOffAfter : DB :=
  { dbOff with scheduleItems := [{ itemOff with notificationSent := true }] }

/-- `itemA` rescheduled to minute 800 (within the 6-hour window from
minute 700). -/
def itemPark : ScheduleItem := { itemA with scheduledTime := 800 }

/-- a store whose only item is the outdoor `itemPark`. -/
def dbPark : DB := { dbA with scheduleItems := [itemPark] }

/-- a contrived item whose place type contains every outdoor tag at
once. -/
def itemAllTags : ScheduleItem :=
  { itemA with
      id := 3
      placeId := "plT"
      placeName := "Weird"
      placeType := some "park zoo natural_feature tourist_attraction hiking"
      scheduledTime := 800 }

/-- a store whose only item is the all-tags item. -/
def dbAllTags : DB := { dbA with scheduleItems := [itemAllTags] }

/-- the indoor alternative offered by the weather environment below. -/
def indoorAlt : Place := { placeId := "plI", name := "Indoor Museum", rating := some 4 }

/-- a weather environment with rain forecast at the instant of the item
(day 10, minute 800) and an available indoor alternative. -/
def envWR : WeatherEnv :=
  { coords := fun _ => some { lat := 1, lng := 2 }
    forecast := fun _ => some [{ timeAbs := 10 * 1440 + 800, description := "Light rain showers" }]
    altSearch := fun _ => { statusCode := 200, results := [indoorAlt] }
    delivery := fun _ => .delivered }

/-- the itinerary-creation request for the generation counterexample. -/
def itinCreateG : ItineraryCreate :=
  { name := "Trip", budget := none, startDate := 10, endDate := 12 }

/-- a generated item dated on day 5 — outside the requested window. -/
def genBad : GeneratedItem :=
  { placeId := "p1", scheduledDate := some 5, scheduledTime := some 600 }

/-- the place map that knows the generated place id. -/
def pmG : List PlaceDetails := [{ id := "p1", name := "Museum", types := ["museum"] }]

/-- an empty store. -/
def dbEmpty : DB :=
  { users := [], itineraries := [], scheduleItems := [], sentOpportunities := []
    notifications := [] }

/-- the schedule item the generate endpoint persists from `genBad`. -/
def itemGenBad : ScheduleItem :=
  { id := 1, itineraryId := 1, placeId := "p1", placeName := "Museum"
    placeType := some "museum", scheduledDate := 5, scheduledTime := 600
    notificationSent := false }

/-- the store the generate endpoint commits in the counterexample. -/
def dbGenRes : DB :=
  { dbEmpty with
      itineraries := [{ id := 1, userId := 7, startDate := 10, endDate := 12 }]
      scheduleItems := [itemGenBad] }

/-- an out-of-window add-item request (day 20 against a 10-to-12
itinerary). -/
def itcBad : ScheduleItemCreate :=
  { placeId := "plC", placeName := "Dome", placeType := none
    scheduledDate := some 20, scheduledTime := 600 }

/-- candidate places for the selection proofs: ratings 4, 5, 5. -/
def psW : List Place :=
  [{ placeId := "a", name := "A", rating := some 4 },
   { placeId := "b", name := "B", rating := some 5 },
   { placeId := "c", name := "C", rating := some 5 }]

/-- a store holding both the opted-in and the opted-out user with their
itineraries and items. -/
def dbMix : DB :=
  { users := [userA, userOff], itineraries := [itinA, itinOff]
    scheduleItems := [itemA, itemOff], sentOpportunities := [], notifications := [] }

/-! ### Lemmas about the push helper and `setNotified` -/

theorem sendExpo_ok (r : PushResult) : send_expo_push_notification r = .ok () := by
  cases r <;> rfl

theorem setNotified_users (db : DB) (j : Nat) : (setNotified db j).users = db.users := rfl

theorem setNotified_itineraries (db : DB) (j : Nat) :
    (setNotified db j).itineraries = db.itineraries := rfl

theorem setNotified_sentOpportunities (db : DB) (j : Nat) :
    (setNotified db j).sentOpportunities = db.sentOpportunities := rfl

theorem setNotified_notifications (db : DB) (j : Nat) :
    (setNotified db j).notifications = db.notifications := rfl

theorem setNotified_flag_inv {db : DB} {j i : Nat}
    (h : ∀ it ∈ db.scheduleItems, it.id = i → it.notificationSent = true) :
    ∀ it' ∈ (setNotified db j).scheduleItems, it'.id = i → it'.notificationSent = true := by
  intro it' hmem hid
  rcases List.mem_map.1 hmem with ⟨it, hit, heq⟩
  by_cases hj : (it.id == j) = true
  · rw [if_pos hj] at heq
    rw [← heq]
  · rw [if_neg hj] at heq
    subst heq
    exact h it hit hid

theorem setNotified_sets {db : DB} {j : Nat} :
    ∀ it' ∈ (setNotified db j).scheduleItems, it'.id = j → it'.notificationSent = true := by
  intro it' hmem hid
  rcases List.mem_map.1 hmem with ⟨it, hit, heq⟩
  by_cases hj : (it.id == j) = true
  · rw [if_pos hj] at heq
    rw [← heq]
  · rw [if_neg hj] at heq
    subst heq
    exact absurd (beq_iff_eq.2 hid) hj

/-! ### Lemmas about the smart-alert loop -/

/-- each loop iteration either leaves the accumulator alone or fires: it
marks the item notified and appends its departure push. -/
theorem smartItemStep_shape (env : SmartEnv) (db0 : DB) (now : Now)
    (acc : DB × List Push) (item : ScheduleItem) :
    smartItemStep env db0 now acc item = acc ∨
    ∃ u, itemUser db0 item = some u ∧
      smartItemStep env db0 now acc item =
        (setNotified acc.1 item.id, acc.2 ++ [smartPush env u item]) := by
  unfold smartItemStep
  split
  · split
    · exact Or.inl rfl
    · next u hu =>
      split
      · rw [sendExpo_ok]
        exact Or.inr ⟨u, hu, rfl⟩
      · exact Or.inl rfl
  · exact Or.inl rfl

/-- when the window, time and user conditions hold, the iteration fires. -/
theorem smartItemStep_fires {env : SmartEnv} {db0 : DB} {now : Now}
    {item : ScheduleItem} {u : User}
    (hw : smartWindowOk now.minute item.scheduledTime = true)
    (hu : itemUser db0 item = some u)
    (ht : now.abs ≥ notifyAt env item) (acc : DB × List Push) :
    smartItemStep env db0 now acc item =
      (setNotified acc.1 item.id, acc.2 ++ [smartPush env u item]) := by
  unfold smartItemStep
  rw [if_pos hw]
  simp only [hu]
  rw [if_pos ht, sendExpo_ok]

/-- any store property preserved by `setNotified` is preserved by the whole
smart-alert loop. -/
theorem smart_foldl_pres (P : DB → Prop)
    (hP : ∀ db j, P db → P (setNotified db j))
    (env : SmartEnv) (db0 : DB) (now : Now) :
    ∀ (l : List ScheduleItem) (acc : DB × List Push), P acc.1 →
      P (l.foldl (smartItemStep env db0 now) acc).1 := by
  intro l
  induction l with
  | nil => intro acc h; exact h
  | cons x t ih =>
    intro acc h
    rw [List.foldl_cons]
    apply ih
    rcases smartItemStep_shape env db0 now acc x with heq | ⟨u, _, heq⟩
    · rw [heq]; exact h
    · rw [heq]; exact hP _ _ h

/-- every push the smart-alert loop emits is the departure push of some
iterated item and its user. -/
theorem smart_foldl_pushes (env : SmartEnv) (db0 : DB) (now : Now) :
    ∀ (l : List ScheduleItem) (acc : DB × List Push) (p : Push),
      p ∈ (l.foldl (smartItemStep env db0 now) acc).2 →
      p ∈ acc.2 ∨ ∃ it ∈ l, ∃ u, itemUser db0 it = some u ∧ p = smartPush env u it := by
  intro l
  induction l with
  | nil => intro acc p h; exact Or.inl h
  | cons x t ih =>
    intro acc p h
    rw [List.foldl_cons] at h
    rcases ih _ p h with hin | ⟨it, hit, u, hu, rfl⟩
    · rcases smartItemStep_shape env db0 now acc x with heq | ⟨u, hu, heq⟩
      · rw [heq] at hin; exact Or.inl hin
      · rw [heq] at hin
        rcases List.mem_append.1 hin with hin | hin
        · exact Or.inl hin
        · rcases List.mem_singleton.1 hin with rfl
          exact Or.inr ⟨x, List.mem_cons_self x t, u, hu, rfl⟩
    · exact Or.inr ⟨it, List.mem_cons_of_mem x hit, u, hu, rfl⟩

/-- once an iterated item meets the firing conditions, every item of the
resulting store carrying its id is flagged as notified. -/
theorem smart_foldl_sets (env : SmartEnv) (db0 : DB) (now : Now) :
    ∀ (l : List ScheduleItem) (acc : DB × List Push) (item : ScheduleItem) (u : User),
      item ∈ l →
      smartWindowOk now.minute item.scheduledTime = true →
      itemUser db0 item = some u →
      now.abs ≥ notifyAt env item →
      ∀ it' ∈ (l.foldl (smartItemStep env db0 now) acc).1.scheduleItems,
        it'.id = item.id → it'.notificationSent = true := by
  intro l
  induction l with
  | nil => intro acc item u hmem; exact absurd hmem (List.not_mem_nil item)
  | cons x t ih =>
    intro acc item u hmem hw hu ht
    rw [List.foldl_cons]
    rcases List.mem_cons.1 hmem with rfl | hmem
    · rw [smartItemStep_fires hw hu ht]
      exact smart_foldl_pres
        (fun d => ∀ it' ∈ d.scheduleItems, it'.id = item.id → it'.notificationSent = true)
        (fun d j h => setNotified_flag_inv h) env db0 now t _ setNotified_sets
    · exact ih _ item u hmem hw hu ht

/-- every push of one smart-alert run comes from a stored item that passed
the query filter, pushed to the user of that item. -/
theorem smart_run_pushes {env : SmartEnv} {now : Now} {db : DB} {p : Push}
    (h : p ∈ (check_and_send_smart_alerts env now db).2) :
    ∃ it ∈ db.scheduleItems, smartQueryPred db now.date it = true ∧
      ∃ u, itemUser db it = some u ∧ p = smartPush env u it := by
  rcases smart_foldl_pushes env db now _ _ p h with hin | ⟨it, hit, u, hu, rfl⟩
  · exact absurd hin (List.not_mem_nil p)
  · rcases List.mem_filter.1 hit with ⟨hmem, hpred⟩
    exact ⟨it, hmem, hpred, u, hu, rfl⟩

/-- every push of one legacy smart-alert run comes from a stored item that
passed the legacy query filter, pushed to the user of that item. -/
theorem legacy_run_pushes {env : SmartEnv} {now : Now} {db : DB} {p : Push}
    (h : p ∈ (legacy_check_and_send_smart_alerts env now db).2) :
    ∃ it ∈ db.scheduleItems, legacySmartQueryPred db now.date it = true ∧
      ∃ u, itemUser db it = some u ∧ p = smartPush env u it := by
  rcases smart_foldl_pushes env db now _ _ p h with hin | ⟨it, hit, u, hu, rfl⟩
  · exact absurd hin (List.not_mem_nil p)
  · rcases List.mem_filter.1 hit with ⟨hmem, hpred⟩
    exact ⟨it, hmem, hpred, u, hu, rfl⟩

/-- the smart-alert run keeps the flag of an already-notified id. -/
theorem smart_run_flag_inv {env : SmartEnv} {now : Now} {db : DB} {i : Nat}
    (h : ∀ it ∈ db.scheduleItems, it.id = i → it.notificationSent = true) :
    ∀ it' ∈ (check_and_send_smart_alerts env now db).1.scheduleItems,
      it'.id = i → it'.notificationSent = true :=
  smart_foldl_pres
    (fun d => ∀ it' ∈ d.scheduleItems, it'.id = i → it'.notificationSent = true)
    (fun d j hd => setNotified_flag_inv hd) env db now _ _ h

/-- a smart-alert run emits no push for an id whose stored items are all
already flagged as notified. -/
theorem smart_run_no_push {env : SmartEnv} {now : Now} {db : DB} {i : Nat}
    (h : ∀ it ∈ db.scheduleItems, it.id = i → it.notificationSent = true) :
    pushesForItem i (check_and_send_smart_alerts env now db).2 = [] := by
  rw [pushesForItem, List.filter_eq_nil_iff]
  intro p hp
  rcases smart_run_pushes hp with ⟨it, hmem, hpred, u, hu, rfl⟩
  intro hc
  have hid : it.id = i := by
    simpa [smartPush] using hc
  have hflag := h it hmem hid
  rw [smartQueryPred, hflag] at hpred
  simp at hpred

/-- iterated smart-alert runs keep an already-notified id flagged and
never push for it. -/
theorem runSmartMany_inv :
    ∀ (runs : List (SmartEnv × Now)) (db : DB) (i : Nat),
      (∀ it ∈ db.scheduleItems, it.id = i → it.notificationSent = true) →
      (∀ it' ∈ (runSmartMany runs db).1.scheduleItems,
        it'.id = i → it'.notificationSent = true) ∧
      pushesForItem i (runSmartMany runs db).2 = [] := by
  intro runs
  induction runs with
  | nil => intro db i h; exact ⟨h, rfl⟩
  | cons en rest ih =>
    intro db i h
    have h1 := @smart_run_flag_inv en.1 en.2 db i h
    have h2 := @smart_run_no_push en.1 en.2 db i h
    have h3 := ih (check_and_send_smart_alerts en.1 en.2 db).1 i h1
    refine ⟨h3.1, ?_⟩
    have h4 := h3.2
    show pushesForItem i ((check_and_send_smart_alerts en.1 en.2 db).2 ++
      (runSmartMany rest (check_and_send_smart_alerts en.1 en.2 db).1).2) = []
    unfold pushesForItem at h2 h4 ⊢
    rw [List.filter_append, h2, h4]
    rfl

/-! ### Fresh-id lemmas -/

theorem le_foldl_max : ∀ (l : List ScheduleItem) (a : Nat),
    a ≤ l.foldl (fun m it => max m it.id) a := by
  intro l
  induction l with
  | nil => intro a; exact le_refl a
  | cons x t ih => intro a; exact le_trans (le_max_left a x.id) (ih (max a x.id))

theorem mem_le_foldl_max : ∀ (l : List ScheduleItem) (a : Nat) (it : ScheduleItem),
    it ∈ l → it.id ≤ l.foldl (fun m i => max m i.id) a := by
  intro l
  induction l with
  | nil => intro a it h; exact absurd h (List.not_mem_nil it)
  | cons x t ih =>
    intro a it h
    rcases List.mem_cons.1 h with rfl | h
    · exact le_trans (le_max_right a it.id) (le_foldl_max t (max a it.id))
    · exact ih (max a x.id) it h

theorem mem_lt_freshItemId {db : DB} {it : ScheduleItem}
    (h : it ∈ db.scheduleItems) : it.id < freshItemId db :=
  Nat.lt_succ_of_le (mem_le_foldl_max db.scheduleItems 0 it h)

theorem parseGeneratedItem_id {pm : List PlaceDetails} {iid n : Nat}
    {g : GeneratedItem} {s : ScheduleItem}
    (h : parseGeneratedItem pm iid n g = some s) : s.id = n := by
  unfold parseGeneratedItem at h
  split at h
  · exact absurd h (by simp)
  · split at h
    · cases h; rfl
    · exact absurd h (by simp)

theorem genStep_ids (pm : List PlaceDetails) (iid : Nat) :
    ∀ (items : List GeneratedItem) (accL : List ScheduleItem) (accN : Nat)
      (s : ScheduleItem),
      s ∈ (items.foldl (genStep pm iid) (accL, accN)).1 → s ∈ accL ∨ accN ≤ s.id := by
  intro items
  induction items with
  | nil => intro accL accN s h; exact Or.inl h
  | cons g t ih =>
    intro accL accN s h
    rw [List.foldl_cons] at h
    cases hp : parseGeneratedItem pm iid accN g with
    | none =>
      rw [genStep, hp] at h
      exact ih accL accN s h
    | some s0 =>
      rw [genStep, hp] at h
      rcases ih _ _ s h with hin | hle
      · rcases List.mem_append.1 hin with hin | hin
        · exact Or.inl hin
        · rcases List.mem_singleton.1 hin with rfl
          exact Or.inr (le_of_eq (parseGeneratedItem_id hp).symm)
      · exact Or.inr (le_of_lt (Nat.lt_of_succ_le hle))

theorem buildGeneratedItems_id_ge {pm : List PlaceDetails} {iid firstId : Nat}
    {items : List GeneratedItem} :
    ∀ s ∈ buildGeneratedItems pm iid firstId items, firstId ≤ s.id := by
  intro s hs
  rcases genStep_ids pm iid items [] firstId s hs with h | h
  · exact absurd h (List.not_mem_nil s)
  · exact h

/-! ### Shape lemmas for the endpoint operations -/

theorem add_ok_items {db : DB} {uid iid : Nat} {itc : ScheduleItemCreate} {db2 : DB}
    (h : add_schedule_item_to_itinerary db uid iid itc = .ok db2) :
    ∃ s, s.id = freshItemId db ∧ s.notificationSent = false ∧
      db2.scheduleItems = db.scheduleItems ++ [s] ∧
      db2.sentOpportunities = db.sentOpportunities := by
  unfold add_schedule_item_to_itinerary at h
  split at h
  · exact absurd h (by simp)
  · split at h
    · exact absurd h (by simp)
    · split at h
      · cases h
        exact ⟨_, rfl, rfl, rfl, rfl⟩
      · exact absurd h (by simp)

theorem update_ok_items {db : DB} {uid itemId : Nat} {upd : ScheduleItemUpdate} {db2 : DB}
    (h : update_schedule_item db uid itemId upd = .ok db2) :
    (∀ it' ∈ db2.scheduleItems, ∃ it ∈ db.scheduleItems,
      it'.id = it.id ∧ it'.notificationSent = it.notificationSent) ∧
    db2.sentOpportunities = db.sentOpportunities := by
  unfold update_schedule_item at h
  split at h
  · exact absurd h (by simp)
  · split at h
    · exact absurd h (by simp)
    · split at h
      · exact absurd h (by simp)
      · split at h
        · cases h
          refine ⟨?_, rfl⟩
          intro it' hmem
          rcases List.mem_map.1 hmem with ⟨it, hit, heq⟩
          by_cases hj : (it.id == itemId) = true
          · rw [if_pos hj] at heq
            exact ⟨it, hit, by rw [← heq], by rw [← heq]⟩
          · rw [if_neg hj] at heq
            exact ⟨it, hit, by rw [← heq], by rw [← heq]⟩
        · exact absurd h (by simp)

theorem delete_item_ok_items {db : DB} {uid itemId : Nat} {db2 : DB}
    (h : delete_schedule_item db uid itemId = .ok db2) :
    (∀ it' ∈ db2.scheduleItems, it' ∈ db.scheduleItems) ∧
    db2.sentOpportunities = db.sentOpportunities := by
  unfold delete_schedule_item at h
  split at h
  · exact absurd h (by simp)
  · split at h
    · exact absurd h (by simp)
    · cases h
      exact ⟨fun it' hm => (List.mem_filter.1 hm).1, rfl⟩

theorem delete_itin_ok_items {db : DB} {uid iid : Nat} {db2 : DB}
    (h : delete_itinerary db uid iid = .ok db2) :
    (∀ it' ∈ db2.scheduleItems, it' ∈ db.scheduleItems) ∧
    db2.sentOpportunities = db.sentOpportunities := by
  unfold delete_itinerary at h
  split at h
  · exact absurd h (by simp)
  · cases h
    exact ⟨fun it' hm => (List.mem_filter.1 hm).1, rfl⟩

theorem generate_ok_items {db : DB} {uid : Nat} {d : ItineraryCreate}
    {g : List GeneratedItem} {pm : List PlaceDetails} {db2 : DB}
    (h : generate_itinerary db uid d g pm = .ok db2) :
    db2.scheduleItems = db.scheduleItems ++
      buildGeneratedItems pm (freshItineraryId db) (freshItemId db) g ∧
    db2.sentOpportunities = db.sentOpportunities := by
  unfold generate_itinerary at h
  split at h
  · exact absurd h (by simp)
  · split at h
    · exact absurd h (by simp)
    · cases h
      exact ⟨rfl, rfl⟩

/-! ### Lemmas about the opportunity loop -/

/-- each opportunity iteration either leaves the accumulator alone or
fires: the two rows of the chosen place are appended together with the push. -/
theorem oppStep_shape (env : OppEnv) (today : Int) (acc : DB × List Push) (u : User) :
    opportunityUserStep env today acc u = acc ∨
    ∃ item c pl,
      firstItemToday acc.1 u.id today = some item ∧
      env.coords item.placeId = some c ∧
      (env.textSearch (searchTerms u) c).statusCode = 200 ∧
      bestOpportunity (env.textSearch (searchTerms u) c).results
        (seenPlaceIds acc.1 u.id) = some pl ∧
      opportunityUserStep env today acc u =
        ({ acc.1 with
            notifications := acc.1.notifications ++
              [{ userId := u.id, title := oppTitle, body := oppBody pl }]
            sentOpportunities := acc.1.sentOpportunities ++
              [{ userId := u.id, placeId := pl.placeId }] },
         acc.2 ++ [oppPush u pl]) := by
  unfold opportunityUserStep
  split
  · exact Or.inl rfl
  · next item hitem =>
    split
    · exact Or.inl rfl
    · next c hc =>
      split
      · exact Or.inl rfl
      · next hstatus =>
        split
        · exact Or.inl rfl
        · next pl hpl =>
          rw [sendExpo_ok]
          exact Or.inr ⟨item, c, pl, hitem, hc, not_not.mp hstatus, hpl, rfl⟩

/-- a chosen opportunity satisfies the candidate filter. -/
theorem bestOpportunity_pred {ps : List Place} {seen : List String} {pl : Place}
    (h : bestOpportunity ps seen = some pl) : opportunityPred seen pl = true :=
  List.find?_some h

/-- a chosen opportunity is one of the searched candidates. -/
theorem bestOpportunity_mem {ps : List Place} {seen : List String} {pl : Place}
    (h : bestOpportunity ps seen = some pl) : pl ∈ ps :=
  (List.perm_insertionSort ratingDescRel ps).subset (List.mem_of_find?_eq_some h)

/-- a place id outside the exclusion list stays outside of the exclusion
list of a store that only grew its sent-opportunity rows. -/
theorem seenPlaceIds_mono {db db' : DB} {uid : Nat}
    (ext : List SentOpportunity)
    (hsent : db'.sentOpportunities = db.sentOpportunities ++ ext)
    (hitems : db'.scheduleItems = db.scheduleItems)
    (hitins : db'.itineraries = db.itineraries) :
    ∀ x ∈ seenPlaceIds db uid, x ∈ seenPlaceIds db' uid := by
  intro x hx
  have hiu : isUserItem db' uid = isUserItem db uid := by
    funext s
    unfold isUserItem findItinerary
    rw [hitins]
  unfold seenPlaceIds at hx ⊢
  rw [hsent, hitems, hiu, List.filter_append, List.map_append]
  rcases List.mem_append.1 hx with h | h
  · exact List.mem_append.2 (Or.inl (List.mem_append.2 (Or.inl h)))
  · exact List.mem_append.2 (Or.inr h)

/-- the opportunity loop leaves users, itineraries and schedule items
unchanged, and only appends sent-opportunity rows; each appended row names
a place outside the exclusion set the loop started from. -/
theorem opp_foldl_shape (env : OppEnv) (today : Int) :
    ∀ (users : List User) (acc : DB × List Push),
      (users.foldl (opportunityUserStep env today) acc).1.users = acc.1.users ∧
      (users.foldl (opportunityUserStep env today) acc).1.itineraries = acc.1.itineraries ∧
      (users.foldl (opportunityUserStep env today) acc).1.scheduleItems = acc.1.scheduleItems ∧
      ∃ ext, (users.foldl (opportunityUserStep env today) acc).1.sentOpportunities =
          acc.1.sentOpportunities ++ ext ∧
        ∀ x ∈ ext, ¬ (x.placeId ∈ seenPlaceIds acc.1 x.userId) := by
  intro users
  induction users with
  | nil =>
    intro acc
    exact ⟨rfl, rfl, rfl, [], (List.append_nil _).symm, by intro x hx; cases hx⟩
  | cons u t ih =>
    intro acc
    rw [List.foldl_cons]
    rcases oppStep_shape env today acc u with heq | ⟨item, c, pl, _, _, _, hpl, heq⟩
    · rw [heq]
      exact ih acc
    · rcases ih (opportunityUserStep env today acc u) with ⟨hu, hi, hs, ext, hext, hprop⟩
      have hAu : (opportunityUserStep env today acc u).1.users = acc.1.users := by rw [heq]
      have hAi : (opportunityUserStep env today acc u).1.itineraries = acc.1.itineraries := by
        rw [heq]
      have hAs : (opportunityUserStep env today acc u).1.scheduleItems = acc.1.scheduleItems := by
        rw [heq]
      have hAo : (opportunityUserStep env today acc u).1.sentOpportunities =
          acc.1.sentOpportunities ++ [{ userId := u.id, placeId := pl.placeId }] := by
        rw [heq]
      refine ⟨hu.trans hAu, hi.trans hAi, hs.trans hAs,
        { userId := u.id, placeId := pl.placeId } :: ext, ?_, ?_⟩
      · rw [hext, hAo, List.append_assoc]
        rfl
      · intro x hx
        rcases List.mem_cons.1 hx with rfl | hx
        · have hp := bestOpportunity_pred hpl
          rw [opportunityPred, Bool.and_eq_true] at hp
          have hnc := hp.1
          intro hmem
          rw [Bool.not_eq_true'] at hnc
          rw [← List.elem_iff (a := pl.placeId)] at hmem
          rw [List.contains] at hnc
          rw [hnc] at hmem
          cases hmem
        · intro hmem
          have hmono := @seenPlaceIds_mono acc.1 (opportunityUserStep env today acc u).1
            x.userId [{ userId := u.id, placeId := pl.placeId }] hAo hAs hAi
          exact hprop x hx (hmono x.placeId hmem)

/-- every push of the opportunity loop is the opportunity push of an
iterated user. -/
theorem opp_foldl_pushes (env : OppEnv) (today : Int) :
    ∀ (users : List User) (acc : DB × List Push) (p : Push),
      p ∈ (users.foldl (opportunityUserStep env today) acc).2 →
      p ∈ acc.2 ∨ ∃ u ∈ users, ∃ pl, p = oppPush u pl := by
  intro users
  induction users with
  | nil => intro acc p h; exact Or.inl h
  | cons u t ih =>
    intro acc p h
    rw [List.foldl_cons] at h
    rcases ih _ p h with hin | ⟨u', hu', pl, rfl⟩
    · rcases oppStep_shape env today acc u with heq | ⟨item, c, pl, _, _, _, _, heq⟩
      · rw [heq] at hin; exact Or.inl hin
      · rw [heq] at hin
        rcases List.mem_append.1 hin with hin | hin
        · exact Or.inl hin
        · rcases List.mem_singleton.1 hin with rfl
          exact Or.inr ⟨u, List.mem_cons_self u t, pl, rfl⟩
    · exact Or.inr ⟨u', List.mem_cons_of_mem u hu', pl, rfl⟩

/-- every push of one opportunity run goes to a stored user that passed
the active-trip filter. -/
theorem opp_run_pushes {env : OppEnv} {today : Int} {db : DB} {p : Push}
    (h : p ∈ (check_for_opportunities env today db).2) :
    ∃ u ∈ db.users, oppEligibleUser db today u = true ∧ ∃ pl, p = oppPush u pl := by
  rcases opp_foldl_pushes env today _ _ p h with hin | ⟨u, hu, pl, rfl⟩
  · exact absurd hin (List.not_mem_nil p)
  · rcases List.mem_filter.1 hu with ⟨hmem, helig⟩
    exact ⟨u, hmem, helig, pl, rfl⟩

/-- one opportunity run leaves the schedule items unchanged. -/
theorem opp_run_scheduleItems (env : OppEnv) (today : Int) (db : DB) :
    (check_for_opportunities env today db).1.scheduleItems = db.scheduleItems :=
  (opp_foldl_shape env today _ (db, [])).2.2.1

/-! ### Lemmas about the weather loop -/

/-- each weather iteration either leaves the accumulator alone or fires:
a notification row is appended together with the push to the user of the
item. -/
theorem weatherItemStep_shape (env : WeatherEnv) (db0 : DB) (now : Now)
    (acc : DB × List Push) (item : ScheduleItem) :
    weatherItemStep env db0 now acc item = acc ∨
    ∃ u alt, itemUser db0 item = some u ∧
      weatherItemStep env db0 now acc item =
        ({ acc.1 with notifications := acc.1.notifications ++
            [{ userId := u.id, title := rainTitle, body := rainBody item alt }] },
         acc.2 ++ [rainPush u item alt]) := by
  unfold weatherItemStep
  split
  · exact Or.inl rfl
  · split
    · exact Or.inl rfl
    · split
      · exact Or.inl rfl
      · split
        · split
          · exact Or.inl rfl
          · split
            · exact Or.inl rfl
            · next alt _ _ =>
              split
              · exact Or.inl rfl
              · next u hu =>
                rw [sendExpo_ok]
                exact Or.inr ⟨u, alt, hu, rfl⟩
        · exact Or.inl rfl

/-- every push of the weather loop is the weather push of an iterated item
and its user. -/
theorem weather_foldl_pushes (env : WeatherEnv) (db0 : DB) (now : Now) :
    ∀ (l : List ScheduleItem) (acc : DB × List Push) (p : Push),
      p ∈ (l.foldl (weatherItemStep env db0 now) acc).2 →
      p ∈ acc.2 ∨ ∃ it ∈ l, ∃ u alt, itemUser db0 it = some u ∧ p = rainPush u it alt := by
  intro l
  induction l with
  | nil => intro acc p h; exact Or.inl h
  | cons x t ih =>
    intro acc p h
    rw [List.foldl_cons] at h
    rcases ih _ p h with hin | ⟨it, hit, u, alt, hu, rfl⟩
    · rcases weatherItemStep_shape env db0 now acc x with heq | ⟨u, alt, hu, heq⟩
      · rw [heq] at hin; exact Or.inl hin
      · rw [heq] at hin
        rcases List.mem_append.1 hin with hin | hin
        · exact Or.inl hin
        · rcases List.mem_singleton.1 hin with rfl
          exact Or.inr ⟨x, List.mem_cons_self x t, u, alt, hu, rfl⟩
    · exact Or.inr ⟨it, List.mem_cons_of_mem x hit, u, alt, hu, rfl⟩

/-- every push of one weather run comes from a stored item that passed the
weather query filter, pushed to the user of that item. -/
theorem weather_run_pushes {env : WeatherEnv} {now : Now} {db : DB} {p : Push}
    (h : p ∈ (check_for_real_time_tips env now db).2) :
    ∃ it ∈ db.scheduleItems, weatherQueryPred db now it = true ∧
      ∃ u alt, itemUser db it = some u ∧ p = rainPush u it alt := by
  rcases weather_foldl_pushes env db now _ _ p h with hin | ⟨it, hit, u, alt, hu, rfl⟩
  · exact absurd hin (List.not_mem_nil p)
  · rcases List.mem_filter.1 hit with ⟨hmem, hpred⟩
    exact ⟨it, hmem, hpred, u, alt, hu, rfl⟩

/-- the weather loop never touches schedule items or sent-opportunity
rows. -/
theorem weather_foldl_pres (env : WeatherEnv) (db0 : DB) (now : Now) :
    ∀ (l : List ScheduleItem) (acc : DB × List Push),
      (l.foldl (weatherItemStep env db0 now) acc).1.scheduleItems = acc.1.scheduleItems ∧
      (l.foldl (weatherItemStep env db0 now) acc).1.sentOpportunities =
        acc.1.sentOpportunities := by
  intro l
  induction l with
  | nil => intro acc; exact ⟨rfl, rfl⟩
  | cons x t ih =>
    intro acc
    rw [List.foldl_cons]
    rcases weatherItemStep_shape env db0 now acc x with heq | ⟨u, alt, hu, heq⟩
    · rw [heq]; exact ih acc
    · rcases ih (weatherItemStep env db0 now acc x) with ⟨h1, h2⟩
      have hA1 : (weatherItemStep env db0 now acc x).1.scheduleItems = acc.1.scheduleItems := by
        rw [heq]
      have hA2 : (weatherItemStep env db0 now acc x).1.sentOpportunities =
          acc.1.sentOpportunities := by
        rw [heq]
      exact ⟨h1.trans hA1, h2.trans hA2⟩

/-- one weather run leaves the schedule items unchanged. -/
theorem weather_run_scheduleItems (env : WeatherEnv) (now : Now) (db : DB) :
    (check_for_real_time_tips env now db).1.scheduleItems = db.scheduleItems :=
  (weather_foldl_pres env db now _ (db, [])).1

/-- one weather run leaves the sent-opportunity rows unchanged. -/
theorem weather_run_sentOpportunities (env : WeatherEnv) (now : Now) (db : DB) :
    (check_for_real_time_tips env now db).1.sentOpportunities = db.sentOpportunities :=
  (weather_foldl_pres env db now _ (db, [])).2

/-- one smart run leaves the sent-opportunity rows unchanged. -/
theorem smart_run_sentOpportunities (env : SmartEnv) (now : Now) (db : DB) :
    (check_and_send_smart_alerts env now db).1.sentOpportunities = db.sentOpportunities :=
  smart_foldl_pres (fun d => d.sentOpportunities = db.sentOpportunities)
    (fun d j h => h) env db now _ _ rfl

/-- one legacy smart run leaves the sent-opportunity rows unchanged. -/
theorem legacy_run_sentOpportunities (env : SmartEnv) (now : Now) (db : DB) :
    (legacy_check_and_send_smart_alerts env now db).1.sentOpportunities =
      db.sentOpportunities :=
  smart_foldl_pres (fun d => d.sentOpportunities = db.sentOpportunities)
    (fun d j h => h) env db now _ _ rfl

/-! ### Lemmas about the rating-descending sort -/

theorem sortPlacesDesc_sorted (ps : List Place) :
    List.Sorted ratingDescRel (sortPlacesDesc ps) := by
  haveI : IsTotal Place ratingDescRel := ⟨fun a b => le_total (ratingOf b) (ratingOf a)⟩
  haveI : IsTrans Place ratingDescRel := ⟨fun a b c hab hbc => le_trans hbc hab⟩
  exact List.sorted_insertionSort ratingDescRel ps

theorem find?_sorted_max {l : List Place} {pred : Place → Bool} {p : Place}
    (hs : List.Sorted ratingDescRel l) (h : l.find? pred = some p) :
    ∀ q ∈ l, pred q = true → ratingOf q ≤ ratingOf p := by
  rcases List.find?_eq_some.1 h with ⟨hp, as, bs, heq, hnot⟩
  subst heq
  intro q hq hqp
  rcases List.mem_append.1 hq with hin | hin
  · have hq0 := hnot q hin
    rw [Bool.not_eq_true'] at hq0
    rw [hq0] at hqp
    cases hqp
  · rcases List.mem_cons.1 hin with rfl | hin
    · exact le_refl _
    · have hP : List.Pairwise ratingDescRel (as ++ p :: bs) := hs
      rcases List.pairwise_append.1 hP with ⟨_, hP2, _⟩
      exact (List.pairwise_cons.1 hP2).1 q hin

/-- the chosen opportunity has the greatest rating among the candidates
that pass the exclusion-and-floor filter. -/
theorem bestOpportunity_max {ps : List Place} {seen : List String} {pl : Place}
    (h : bestOpportunity ps seen = some pl) :
    ∀ q ∈ ps, seen.contains q.placeId = false → qualityFloor ≤ ratingOf q →
      ratingOf q ≤ ratingOf pl := by
  intro q hq h1 h2
  have hq2 : q ∈ sortPlacesDesc ps :=
    ((List.perm_insertionSort ratingDescRel ps).mem_iff).2 hq
  refine find?_sorted_max (sortPlacesDesc_sorted ps) h q hq2 ?_
  rw [opportunityPred, h1]
  simp [h2]

/-- when no opportunity is chosen, every candidate is excluded or rated
below the floor. -/
theorem bestOpportunity_none {ps : List Place} {seen : List String}
    (h : bestOpportunity ps seen = none) :
    ∀ q ∈ ps, seen.contains q.placeId = true ∨ ratingOf q < qualityFloor := by
  intro q hq
  have hq2 : q ∈ sortPlacesDesc ps :=
    ((List.perm_insertionSort ratingDescRel ps).mem_iff).2 hq
  have hnp := List.find?_eq_none.1 h q hq2
  by_cases hc : seen.contains q.placeId = true
  · exact Or.inl hc
  · right
    have hcf : seen.contains q.placeId = false := eq_false_of_ne_true hc
    rw [opportunityPred, hcf] at hnp
    simp at hnp
    exact hnp

/-! ### Operation-level preservation lemmas -/

/-- only the Opportunity Alert writes sent-opportunity rows; every other
operation leaves them exactly as they are. -/
theorem applyOperation_sentOps (op : Operation) (hop : isOpportunityOp op = false)
    (db : DB) : (applyOperation op db).sentOpportunities = db.sentOpportunities := by
  cases op with
  | smartAlerts env now => exact smart_run_sentOpportunities env now db
  | legacySmartAlerts env now => exact legacy_run_sentOpportunities env now db
  | opportunities env today => exact Bool.noConfusion hop
  | realTimeTips env now => exact weather_run_sentOpportunities env now db
  | addItem uid iid itc =>
    show (match add_schedule_item_to_itinerary db uid iid itc with
      | .ok db2 => db2 | .error _ => db).sentOpportunities = db.sentOpportunities
    cases h : add_schedule_item_to_itinerary db uid iid itc with
    | ok db2 =>
      rcases add_ok_items h with ⟨s, _, _, _, hsent⟩
      exact hsent
    | error e => rfl
  | updateItem uid itemId upd =>
    show (match update_schedule_item db uid itemId upd with
      | .ok db2 => db2 | .error _ => db).sentOpportunities = db.sentOpportunities
    cases h : update_schedule_item db uid itemId upd with
    | ok db2 => exact (update_ok_items h).2
    | error e => rfl
  | deleteItem uid itemId =>
    show (match delete_schedule_item db uid itemId with
      | .ok db2 => db2 | .error _ => db).sentOpportunities = db.sentOpportunities
    cases h : delete_schedule_item db uid itemId with
    | ok db2 => exact (delete_item_ok_items h).2
    | error e => rfl
  | createItin uid d => rfl
  | generateItin uid d g pm =>
    show (match generate_itinerary db uid d g pm with
      | .ok db2 => db2 | .error _ => db).sentOpportunities = db.sentOpportunities
    cases h : generate_itinerary db uid d g pm with
    | ok db2 => exact (generate_ok_items h).2
    | error e => rfl
  | deleteItin uid iid =>
    show (match delete_itinerary db uid iid with
      | .ok db2 => db2 | .error _ => db).sentOpportunities = db.sentOpportunities
    cases h : delete_itinerary db uid iid with
    | ok db2 => exact (delete_itin_ok_items h).2
    | error e => rfl

/-- no operation of the system resets the `notification_sent` flag: for an
id flagged as notified, every item of the resulting store carrying that id
is still flagged. -/
theorem applyOperation_flag_inv (op : Operation) (db : DB) (item : ScheduleItem)
    (hmem : item ∈ db.scheduleItems)
    (hinv : ∀ it ∈ db.scheduleItems, it.id = item.id → it.notificationSent = true) :
    ∀ it' ∈ (applyOperation op db).scheduleItems, it'.id = item.id →
      it'.notificationSent = true := by
  cases op with
  | smartAlerts env now => exact smart_run_flag_inv hinv
  | legacySmartAlerts env now =>
    exact smart_foldl_pres
      (fun d => ∀ it' ∈ d.scheduleItems, it'.id = item.id → it'.notificationSent = true)
      (fun d j hd => setNotified_flag_inv hd) env db now _ _ hinv
  | opportunities env today =>
    intro it' hm hid
    rw [show (applyOperation (.opportunities env today) db).scheduleItems =
      db.scheduleItems from opp_run_scheduleItems env today db] at hm
    exact hinv it' hm hid
  | realTimeTips env now =>
    intro it' hm hid
    rw [show (applyOperation (.realTimeTips env now) db).scheduleItems =
      db.scheduleItems from weather_run_scheduleItems env now db] at hm
    exact hinv it' hm hid
  | addItem uid iid itc =>
    intro it' hm hid
    replace hm : it' ∈ (match add_schedule_item_to_itinerary db uid iid itc with
      | .ok db2 => db2 | .error _ => db).scheduleItems := hm
    cases h : add_schedule_item_to_itinerary db uid iid itc with
    | ok db2 =>
      rw [h] at hm
      rcases add_ok_items h with ⟨s, hsid, _, hitems, _⟩
      rw [hitems] at hm
      rcases List.mem_append.1 hm with hm | hm
      · exact hinv it' hm hid
      · rcases List.mem_singleton.1 hm with rfl
        rw [hsid] at hid
        exact absurd (hid ▸ mem_lt_freshItemId hmem) (lt_irrefl _)
    | error e =>
      rw [h] at hm
      exact hinv it' hm hid
  | updateItem uid itemId upd =>
    intro it' hm hid
    replace hm : it' ∈ (match update_schedule_item db uid itemId upd with
      | .ok db2 => db2 | .error _ => db).scheduleItems := hm
    cases h : update_schedule_item db uid itemId upd with
    | ok db2 =>
      rw [h] at hm
      rcases (update_ok_items h).1 it' hm with ⟨it0, hit0, hideq, hflageq⟩
      rw [hflageq]
      exact hinv it0 hit0 (hideq.symm.trans hid)
    | error e =>
      rw [h] at hm
      exact hinv it' hm hid
  | deleteItem uid itemId =>
    intro it' hm hid
    replace hm : it' ∈ (match delete_schedule_item db uid itemId with
      | .ok db2 => db2 | .error _ => db).scheduleItems := hm
    cases h : delete_schedule_item db uid itemId with
    | ok db2 =>
      rw [h] at hm
      exact hinv it' ((delete_item_ok_items h).1 it' hm) hid
    | error e =>
      rw [h] at hm
      exact hinv it' hm hid
  | createItin uid d =>
    intro it' hm hid
    exact hinv it' hm hid
  | generateItin uid d g pm =>
    intro it' hm hid
    replace hm : it' ∈ (match generate_itinerary db uid d g pm with
      | .ok db2 => db2 | .error _ => db).scheduleItems := hm
    cases h : generate_itinerary db uid d g pm with
    | ok db2 =>
      rw [h] at hm
      rw [(generate_ok_items h).1] at hm
      rcases List.mem_append.1 hm with hm | hm
      · exact hinv it' hm hid
      · have hge := buildGeneratedItems_id_ge it' hm
        have hlt := mem_lt_freshItemId hmem
        rw [hid] at hge
        exact absurd (lt_of_lt_of_le hlt hge) (lt_irrefl _)
    | error e =>
      rw [h] at hm
      exact hinv it' hm hid
  | deleteItin uid iid =>
    intro it' hm hid
    replace hm : it' ∈ (match delete_itinerary db uid iid with
      | .ok db2 => db2 | .error _ => db).scheduleItems := hm
    cases h : delete_itinerary db uid iid with
    | ok db2 =>
      rw [h] at hm
      exact hinv it' ((delete_itin_ok_items h).1 it' hm) hid
    | error e =>
      rw [h] at hm
      exact hinv it' hm hid

/-! ### Environment-congruence lemmas for the smart rule -/

/-- the behaviour of the smart rule depends on the directions service only
through the computed travel time. -/
theorem smart_env_congr (env1 env2 : SmartEnv) (now : Now) (db : DB)
    (hd : env1.delivery = env2.delivery)
    (hg : ∀ pid, get_travel_time_seconds env1.apiKey (env1.geo pid) =
      get_travel_time_seconds env2.apiKey (env2.geo pid)) :
    check_and_send_smart_alerts env1 now db = check_and_send_smart_alerts env2 now db := by
  unfold check_and_send_smart_alerts
  have hstep : smartItemStep env1 db now = smartItemStep env2 db now := by
    funext acc item
    unfold smartItemStep notifyAt smartPush travelMinutes
    rw [hg item.placeId, hd]
  rw [hstep]

/-- the committed store of the smart rule and emitted pushes are the same for
every push-delivery outcome function. -/
theorem smart_delivery_irrelevant (env : SmartEnv) (d : Push → PushResult)
    (now : Now) (db : DB) :
    check_and_send_smart_alerts { env with delivery := d } now db =
      check_and_send_smart_alerts env now db := by
  unfold check_and_send_smart_alerts
  have hstep : smartItemStep { env with delivery := d } db now = smartItemStep env db now := by
    funext acc item
    unfold smartItemStep
    simp only [sendExpo_ok]
    rfl
  rw [hstep]

/-! ### Key-uniqueness and predicate-extraction lemmas -/

theorem nodup_keyed {l : List ScheduleItem}
    (h : l.Pairwise (fun a b => a.id ≠ b.id)) :
    ∀ a ∈ l, ∀ b ∈ l, a.id = b.id → a = b := by
  induction l with
  | nil => intro a ha; exact absurd ha (List.not_mem_nil a)
  | cons x t ih =>
    rcases List.pairwise_cons.1 h with ⟨hx, ht⟩
    intro a ha b hb heq
    rcases List.mem_cons.1 ha with ha1 | ha1
    · rcases List.mem_cons.1 hb with hb1 | hb1
      · rw [ha1, hb1]
      · rw [ha1] at heq
        exact absurd heq (hx b hb1)
    · rcases List.mem_cons.1 hb with hb1 | hb1
      · rw [hb1] at heq
        exact absurd heq.symm (hx a ha1)
      · exact ih ht a ha1 b hb1 heq

theorem itemUser_mem {db : DB} {it : ScheduleItem} {u : User}
    (h : itemUser db it = some u) : u ∈ db.users := by
  unfold itemUser at h
  cases hit : findItinerary db it.itineraryId with
  | none => rw [hit] at h; cases h
  | some itin =>
    rw [hit] at h
    exact List.mem_of_find?_eq_some h

theorem smartQueryPred_user {db : DB} {today : Int} {item : ScheduleItem}
    (h : smartQueryPred db today item = true) :
    item.scheduledDate = today ∧ item.notificationSent = false ∧
    ∃ u, itemUser db item = some u ∧ u.fcmToken.isSome = true ∧
      u.allowSmartAlerts = true := by
  rw [smartQueryPred] at h
  cases hu : itemUser db item with
  | none => rw [hu] at h; simp at h
  | some u =>
    rw [hu] at h
    simp only [Bool.and_eq_true, beq_iff_eq] at h
    exact ⟨h.1.1, h.1.2, u, rfl, h.2.1, h.2.2⟩

theorem legacySmartQueryPred_user {db : DB} {today : Int} {item : ScheduleItem}
    (h : legacySmartQueryPred db today item = true) :
    item.scheduledDate = today ∧ item.notificationSent = false ∧
    ∃ u, itemUser db item = some u ∧ u.fcmToken.isSome = true := by
  rw [legacySmartQueryPred] at h
  cases hu : itemUser db item with
  | none => rw [hu] at h; simp at h
  | some u =>
    rw [hu] at h
    simp only [Bool.and_eq_true, beq_iff_eq] at h
    exact ⟨h.1.1, h.1.2, u, rfl, h.2⟩

theorem weatherQueryPred_user {db : DB} {now : Now} {item : ScheduleItem}
    (h : weatherQueryPred db now item = true) :
    ∃ u, itemUser db item = some u ∧ u.allowRealTimeTips = true ∧
      u.fcmToken.isSome = true := by
  rw [weatherQueryPred] at h
  cases hu : itemUser db item with
  | none => rw [hu] at h; simp at h
  | some u =>
    rw [hu] at h
    simp only [Bool.and_eq_true] at h
    exact ⟨u, rfl, h.1.1.1.1.1, h.1.1.1.1.2⟩

theorem oppEligibleUser_flags {db : DB} {today : Int} {u : User}
    (h : oppEligibleUser db today u = true) :
    u.allowOpportunityAlerts = true ∧ u.fcmToken.isSome = true := by
  rw [oppEligibleUser] at h
  simp only [Bool.and_eq_true] at h
  exact ⟨h.1.1, h.1.2⟩

/-- a user holding a token is the only token holder under the token-uniqueness
schema constraint, so a push built for a token-holding user with
a different policy cannot carry the token of this user. -/
theorem token_getD_eq {u : User} {tk s : String}
    (h : u.fcmToken = some s) : u.fcmToken.getD "" = tk → u.fcmToken = some tk := by
  intro hg
  rw [h] at hg ⊢
  cases hg
  rfl

/-! ### The claims -/

/-- C7: if the geo travel-time call fails (no API key, network error,
non-OK status, or a malformed body) the helper returns the fixed default of
900 seconds, and the Smart Departure rule evaluates exactly as it would
with a successful 900-second response — the candidate is neither skipped
nor does the rule raise. -/
theorem C7_travel_time_fallback :
    (∀ r, get_travel_time_seconds none r = 900) ∧
    (∀ k, get_travel_time_seconds (some k) .failure = 900) ∧
    (∀ k s d, s ≠ "OK" → get_travel_time_seconds (some k) (.parsed s d) = 900) ∧
    (∀ k, get_travel_time_seconds (some k) (.parsed "OK" none) = 900) ∧
    (∀ (env : SmartEnv) (now : Now) (db : DB),
      check_and_send_smart_alerts { env with geo := fun _ => .failure } now db =
        check_and_send_smart_alerts { env with geo := fun _ => .parsed "OK" (some 900) } now db) := by
  refine ⟨fun r => rfl, fun k => rfl, ?_, fun k => rfl, ?_⟩
  · intro k s d hs
    simp [get_travel_time_seconds, hs]
  · intro env now db
    refine smart_env_congr _ _ now db rfl ?_
    intro pid
    show get_travel_time_seconds env.apiKey .failure =
      get_travel_time_seconds env.apiKey (.parsed "OK" (some 900))
    cases env.apiKey <;> rfl

/-- witness for C7: a non-OK status response degrades to the default and
the rule run with a failing geo oracle equals the run with the constant
900-second oracle on the concrete store. -/
theorem C7_witness :
    get_travel_time_seconds (some "key") (.parsed "ZERO_RESULTS" (some 1200)) = 900 ∧
    check_and_send_smart_alerts { envA with geo := fun _ => .failure } ⟨10, 720⟩ dbA =
      check_and_send_smart_alerts { envA with geo := fun _ => .parsed "OK" (some 900) }
        ⟨10, 720⟩ dbA :=
  ⟨C7_travel_time_fallback.2.2.1 "key" "ZERO_RESULTS" (some 1200) (by decide),
   C7_travel_time_fallback.2.2.2.2 envA ⟨10, 720⟩ dbA⟩

/-- counterexample to C9: at 23:00 (minute 1380) the look-ahead window
wraps past midnight, and an item scheduled exactly at `now` — which the
claim says is considered — is skipped: the run sends nothing and leaves the
store unchanged, although the item passes the query filter and its
notification instant has already arrived. -/
theorem C9_counterexample :
    smartWindowOk 1380 1380 = false ∧
    itemLate ∈ dbLate.scheduleItems ∧
    itemLate.scheduledTime = 1380 ∧
    smartQueryPred dbLate 10 itemLate = true ∧
    notifyAt envA itemLate ≤ Now.abs ⟨10, 1380⟩ ∧
    check_and_send_smart_alerts envA ⟨10, 1380⟩ dbLate = (dbLate, []) := by decide

/-- C9 (amended): whenever `now + 90` minutes stays within the same day,
the look-ahead window test is inclusive at both ends — an item at exactly
`now` or exactly `now + 90` minutes passes and items strictly outside
fail; when the window crosses midnight the test rejects every time of day,
including one equal to `now`. -/
theorem C9_window_inclusive_within_day (nowMinute t : Nat) :
    (nowMinute + 90 < 1440 →
      (smartWindowOk nowMinute t = true ↔ (nowMinute ≤ t ∧ t ≤ nowMinute + 90))) ∧
    (1440 ≤ nowMinute + 90 → nowMinute < 1440 → smartWindowOk nowMinute t = false) := by
  constructor
  · intro h
    unfold smartWindowOk
    rw [Nat.mod_eq_of_lt h, Bool.and_eq_true, decide_eq_true_eq, decide_eq_true_eq]
  · intro h1 h2
    unfold smartWindowOk
    have hlt : (nowMinute + 90) % 1440 = nowMinute + 90 - 1440 := by
      rw [Nat.mod_eq_sub_mod h1, Nat.mod_eq_of_lt (by omega)]
    rw [hlt]
    by_cases hc : nowMinute ≤ t
    · have h3 : decide (t ≤ nowMinute + 90 - 1440) = false :=
        decide_eq_false (by omega)
      rw [h3, Bool.and_false]
    · have h3 : decide (nowMinute ≤ t) = false := decide_eq_false hc
      rw [h3, Bool.false_and]

/-- witness for C9 (amended): at 11:40 (minute 700) the window accepts the
boundary minute 790 and rejects minute 791; at 23:00 the wrapped window
rejects its own start, a time shortly after midnight, and a time later the
same evening alike. -/
theorem C9_witness :
    smartWindowOk 700 790 = true ∧ ¬ (700 ≤ 791 ∧ 791 ≤ 700 + 90) ∧
    smartWindowOk 1380 1380 = false ∧
    smartWindowOk 1380 30 = false ∧
    smartWindowOk 1380 1400 = false :=
  ⟨((C9_window_inclusive_within_day 700 790).1 (by decide)).2 ⟨by decide, by decide⟩,
   fun hc => absurd (((C9_window_inclusive_within_day 700 791).1 (by decide)).2 hc) (by decide),
   (C9_window_inclusive_within_day 1380 1380).2 (by decide) (by decide),
   (C9_window_inclusive_within_day 1380 30).2 (by decide) (by decide),
   (C9_window_inclusive_within_day 1380 1400).2 (by decide) (by decide)⟩

/-- C10: the push helper swallows both HTTP-status and request errors, so
the committed store and the pushes of the rule are identical for every delivery
outcome; an item whose notification instant has arrived is flagged as
notified even when its push fails to deliver, and no later smart-alert run
ever pushes for that item again. -/
theorem C10_flag_set_regardless_of_delivery
    (env : SmartEnv) (now : Now) (db : DB) (item : ScheduleItem) (u : User)
    (hmem : item ∈ db.scheduleItems)
    (hpred : smartQueryPred db now.date item = true)
    (hwin : smartWindowOk now.minute item.scheduledTime = true)
    (hu : itemUser db item = some u)
    (ht : now.abs ≥ notifyAt env item) :
    (∀ r, send_expo_push_notification r = .ok ()) ∧
    (∀ d, check_and_send_smart_alerts { env with delivery := d } now db =
        check_and_send_smart_alerts env now db) ∧
    (∀ it' ∈ (check_and_send_smart_alerts env now db).1.scheduleItems,
        it'.id = item.id → it'.notificationSent = true) ∧
    (∀ env2 now2, pushesForItem item.id
        (check_and_send_smart_alerts env2 now2
          (check_and_send_smart_alerts env now db).1).2 = []) := by
  have hset : ∀ it' ∈ (check_and_send_smart_alerts env now db).1.scheduleItems,
      it'.id = item.id → it'.notificationSent = true :=
    smart_foldl_sets env db now _ (db, []) item u
      (List.mem_filter.2 ⟨hmem, hpred⟩) hwin hu ht
  exact ⟨sendExpo_ok, fun d => smart_delivery_irrelevant env d now db, hset,
    fun env2 now2 => smart_run_no_push hset⟩

/-- witness for C10: on the concrete store the run with a failing gateway
equals the run with a healthy one, and a second run on the committed store
sends nothing for the item. -/
theorem C10_witness :
    check_and_send_smart_alerts { envA with delivery := fun _ => .requestError } ⟨10, 720⟩ dbA =
      check_and_send_smart_alerts envA ⟨10, 720⟩ dbA ∧
    pushesForItem 1
      (check_and_send_smart_alerts envA ⟨10, 730⟩
        (check_and_send_smart_alerts envA ⟨10, 720⟩ dbA).1).2 = [] := by
  have h := C10_flag_set_regardless_of_delivery envA ⟨10, 720⟩ dbA itemA userA
    (by decide) (by decide) (by decide) (by decide) (by decide)
  exact ⟨h.2.1 (fun _ => .requestError), h.2.2.2 envA ⟨10, 730⟩⟩

/-- counterexample to C2: a cycle in which the first rule raises runs
neither of the other two rules: with a store and environment under which
the Opportunity rule alone would push, the cycle that starts with a raising
rule emits nothing and changes nothing. -/
theorem C2_counterexample :
    runCycle (failingRule "database error")
        (liftRule (check_for_opportunities envOppA 10))
        (liftRule (check_for_real_time_tips envWA ⟨10, 720⟩)) dbA = (dbA, []) ∧
    (check_for_opportunities envOppA 10 dbA).2 = [oppPush userA gemPlace] := by decide

/-- C2 (amended): the loop catches exceptions at cycle level — a raise in
the first rule ends the cycle with only the committed effects of that rule, the
remaining two rules of the cycle are not consulted at all, and the next
cycle still starts on the committed store. -/
theorem C2_cycle_level_catch
    (r1 r2 r2' r3 r3' : Rule) (db db1 : DB) (p1 : List Push) (e : String)
    (h : r1 db = (db1, p1, some e)) :
    runCycle r1 r2 r3 db = (db1, p1) ∧
    runCycle r1 r2 r3 db = runCycle r1 r2' r3' db ∧
    (∀ n, runLoopN r1 r2 r3 (n + 1) db =
      ((runLoopN r1 r2 r3 n db1).1, p1 ++ (runLoopN r1 r2 r3 n db1).2)) := by
  have hc : runCycle r1 r2 r3 db = (db1, p1) := by
    unfold runCycle
    rw [h]
  refine ⟨hc, ?_, ?_⟩
  · rw [hc]
    unfold runCycle
    rw [h]
  · intro n
    show ((runLoopN r1 r2 r3 n (runCycle r1 r2 r3 db).1).1,
      (runCycle r1 r2 r3 db).2 ++ (runLoopN r1 r2 r3 n (runCycle r1 r2 r3 db).1).2) = _
    rw [hc]

/-- witness for C2 (amended): with a raising first rule the cycle result
does not depend on which rules come second and third. -/
theorem C2_witness :
    runCycle (failingRule "database error")
        (liftRule (check_for_opportunities envOppA 10))
        (liftRule (check_for_real_time_tips envWA ⟨10, 720⟩)) dbOff =
      runCycle (failingRule "database error")
        (liftRule (check_and_send_smart_alerts envA ⟨10, 720⟩))
        (liftRule (check_for_real_time_tips envWR ⟨10, 700⟩)) dbOff :=
  (C2_cycle_level_catch (failingRule "database error")
    (liftRule (check_for_opportunities envOppA 10))
    (liftRule (check_and_send_smart_alerts envA ⟨10, 720⟩))
    (liftRule (check_for_real_time_tips envWA ⟨10, 720⟩))
    (liftRule (check_for_real_time_tips envWR ⟨10, 700⟩))
    dbOff dbOff [] "database error" rfl).2.1

/-- C1: once the Smart Departure rule has fired for a schedule item the
`notification_sent` flag is true; no modelled operation of the system ever
resets it to false, and any number of further smart-alert runs (with any
environments and clocks) emit zero pushes for that item. -/
theorem C1_notification_sent_latches (db : DB) (item : ScheduleItem)
    (hwf : itemIdsNodup db) (hmem : item ∈ db.scheduleItems)
    (hflag : item.notificationSent = true) :
    (∀ runs : List (SmartEnv × Now),
        pushesForItem item.id (runSmartMany runs db).2 = [] ∧
        ∀ it' ∈ (runSmartMany runs db).1.scheduleItems, it'.id = item.id →
          it'.notificationSent = true) ∧
    (∀ op : Operation, ∀ it' ∈ (applyOperation op db).scheduleItems,
        it'.id = item.id → it'.notificationSent = true) := by
  have hinv : ∀ it ∈ db.scheduleItems, it.id = item.id → it.notificationSent = true := by
    intro it hit hid
    rw [nodup_keyed hwf it hit item hmem hid]
    exact hflag
  refine ⟨fun runs => ?_, fun op => applyOperation_flag_inv op db item hmem hinv⟩
  exact ⟨(runSmartMany_inv runs db item.id hinv).2, (runSmartMany_inv runs db item.id hinv).1⟩

/-- witness for C1: two further runs on a store whose item is already
notified emit no push for it, and an update of the item keeps the flag. -/
theorem C1_witness :
    pushesForItem 2 (runSmartMany [(envA, ⟨10, 720⟩), (envA, ⟨10, 735⟩)] dbDone).2 = [] ∧
    (applyOperation (.updateItem 1 2 { scheduledDate := 11, scheduledTime := 700 }) dbDone
      ).scheduleItems =
      [{ itemDone with scheduledDate := 11, scheduledTime := 700 }] := by
  have h := C1_notification_sent_latches dbDone itemDone (by decide) (by decide) (by decide)
  exact ⟨(h.1 [(envA, ⟨10, 720⟩), (envA, ⟨10, 735⟩)]).1, by decide⟩

/-- counterexample to C6: the legacy smart-alert scheduler in
`services/notification_scheduler.py` filters only on date, flag and token —
not on the opt-in flag — so a user with `allow_smart_alerts` off still
receives a departure push from it when every other condition holds. -/
theorem C6_counterexample :
    userOff.allowSmartAlerts = false ∧
    legacy_check_and_send_smart_alerts envA ⟨10, 720⟩ dbOff =
      (dbOffAfter, [smartPush envA userOff itemOff]) ∧
    (smartPush envA userOff itemOff).token = "tokOff" ∧
    userOff.fcmToken = some "tokOff" := by decide

/-- C6 (amended): in the scripts scheduler each of the three rules filters
on its opt-in flag, so an opted-out token holder never receives that
category of push; the legacy smart-alert variant in
`services/notification_scheduler.py`, however, has no opt-in filter and
pushes to opted-out users (see the counterexample). -/
theorem C6_opt_out_respected (db : DB) (u : User) (tk : String)
    (hu : u ∈ db.users) (htk : u.fcmToken = some tk)
    (huniq : ∀ u2 ∈ db.users, u2.fcmToken = some tk → u2 = u) :
    (u.allowSmartAlerts = false → ∀ env now,
      ∀ p ∈ (check_and_send_smart_alerts env now db).2, p.token ≠ tk) ∧
    (u.allowOpportunityAlerts = false → ∀ env today,
      ∀ p ∈ (check_for_opportunities env today db).2, p.token ≠ tk) ∧
    (u.allowRealTimeTips = false → ∀ env now,
      ∀ p ∈ (check_for_real_time_tips env now db).2, p.token ≠ tk) := by
  refine ⟨?_, ?_, ?_⟩
  · intro hoff env now p hp htok
    rcases smart_run_pushes hp with ⟨it, hit, hpred, u2, hu2, rfl⟩
    rcases smartQueryPred_user hpred with ⟨_, _, u3, hu3, hsome, hflag⟩
    rw [hu2] at hu3
    injection hu3 with hu3
    subst hu3
    rcases Option.isSome_iff_exists.1 hsome with ⟨s, hs⟩
    have hteq : u2.fcmToken = some tk := token_getD_eq hs htok
    have hequ : u2 = u := huniq u2 (itemUser_mem hu2) hteq
    rw [hequ, hoff] at hflag
    cases hflag
  · intro hoff env today p hp htok
    rcases opp_run_pushes hp with ⟨u2, hmem2, helig, pl, rfl⟩
    rcases oppEligibleUser_flags helig with ⟨hflag, hsome⟩
    rcases Option.isSome_iff_exists.1 hsome with ⟨s, hs⟩
    have hteq : u2.fcmToken = some tk := token_getD_eq hs htok
    have hequ : u2 = u := huniq u2 hmem2 hteq
    rw [hequ, hoff] at hflag
    cases hflag
  · intro hoff env now p hp htok
    rcases weather_run_pushes hp with ⟨it, hit, hpred, u2, alt, hu2, rfl⟩
    rcases weatherQueryPred_user hpred with ⟨u3, hu3, hflag, hsome⟩
    rw [hu2] at hu3
    injection hu3 with hu3
    subst hu3
    rcases Option.isSome_iff_exists.1 hsome with ⟨s, hs⟩
    have hteq : u2.fcmToken = some tk := token_getD_eq hs htok
    have hequ : u2 = u := huniq u2 (itemUser_mem hu2) hteq
    rw [hequ, hoff] at hflag
    cases hflag

/-- witness for C6 (amended): in a store holding both users, the push the
smart rule emits for the opted-in user does not carry the token of the opted-out
user. -/
theorem C6_witness :
    (smartPush envA userA itemA).token ≠ "tokOff" := by
  have h := C6_opt_out_respected dbMix userOff "tokOff" (by decide) (by decide) (by decide)
  exact h.1 (by decide) envA ⟨10, 720⟩ (smartPush envA userA itemA) (by decide)

/-- C3 (failing input): the weather-tip query combines the five outdoor
tag patterns with `and_`, so an item typed `park` — which the claim says
matches the outdoor tag set — is not selected although its user opted in
and holds a token, the item is scheduled today inside the 6-hour window,
rain is forecast at its instant and an indoor alternative exists; the rule
fires only for a contrived type containing all five tags at once. -/
theorem C3_outdoor_filter_conjunction :
    weatherQueryPred dbPark ⟨10, 700⟩ itemPark = false ∧
    (itemPark.placeType = some "park" ∧ ilike "park" "park" = true ∧
     userA.allowRealTimeTips = true ∧ userA.fcmToken.isSome = true ∧
     itemUser dbPark itemPark = some userA ∧
     itemPark.scheduledDate = 10 ∧ 700 ≤ itemPark.scheduledTime ∧
     itemPark.scheduledTime ≤ (700 + 360) % 1440) ∧
    check_for_real_time_tips envWR ⟨10, 700⟩ dbPark = (dbPark, []) ∧
    weatherQueryPred dbAllTags ⟨10, 700⟩ itemAllTags = true ∧
    (check_for_real_time_tips envWR ⟨10, 700⟩ dbAllTags).2 =
      [rainPush userA itemAllTags indoorAlt] := by decide

/-- counterexample to C5: the auto-generate endpoint persists a schedule
item dated day 5 into an itinerary whose window is days 10 to 12 — the
out-of-window creation is accepted, not rejected. -/
theorem C5_counterexample :
    generate_itinerary dbEmpty 7 itinCreateG [genBad] pmG = .ok dbGenRes ∧
    itemGenBad ∈ dbGenRes.scheduleItems ∧
    itemGenBad.itineraryId = 1 ∧
    { id := 1, userId := 7, startDate := 10, endDate := 12 } ∈ dbGenRes.itineraries ∧
    itemGenBad.scheduledDate < itinCreateG.startDate := by decide

/-- C5 (amended): the inclusive window invariant is enforced at the manual
add-item and update-item endpoints — an out-of-window date is rejected with
a 400 and the stored state is unchanged — but the auto-generate endpoint
persists generated items without comparing their dates to the window (see
the counterexample). -/
theorem C5_window_enforced_on_add_and_update
    (db : DB) (uid iid itemId : Nat) (itc : ScheduleItemCreate)
    (upd : ScheduleItemUpdate) (itin : Itinerary) (d : Int) :
    (db.itineraries.find? (fun it => it.id == iid && it.userId == uid) = some itin →
     itc.scheduledDate = some d →
     ¬(itin.startDate ≤ d ∧ d ≤ itin.endDate) →
     add_schedule_item_to_itinerary db uid iid itc = .error .badRequest ∧
     applyOperation (.addItem uid iid itc) db = db) ∧
    (∀ item, db.scheduleItems.find? (fun s => s.id == itemId) = some item →
     findItinerary db item.itineraryId = some itin →
     itin.userId = uid →
     ¬(itin.startDate ≤ upd.scheduledDate ∧ upd.scheduledDate ≤ itin.endDate) →
     update_schedule_item db uid itemId upd = .error .badRequest ∧
     applyOperation (.updateItem uid itemId upd) db = db) := by
  constructor
  · intro h1 h2 h3
    have herr : add_schedule_item_to_itinerary db uid iid itc = .error .badRequest := by
      unfold add_schedule_item_to_itinerary
      simp only [h1, h2]
      rw [if_neg h3]
    refine ⟨herr, ?_⟩
    show (match add_schedule_item_to_itinerary db uid iid itc with
      | .ok db2 => db2 | .error _ => db) = db
    rw [herr]
  · intro item h1 h2 h3 h4
    have herr : update_schedule_item db uid itemId upd = .error .badRequest := by
      unfold update_schedule_item
      simp only [h1, h2]
      rw [if_neg (not_not_intro h3), if_neg h4]
    refine ⟨herr, ?_⟩
    show (match update_schedule_item db uid itemId upd with
      | .ok db2 => db2 | .error _ => db) = db
    rw [herr]

/-- witness for C5 (amended): adding an item dated day 20 to the 10-to-12
itinerary is rejected with a 400 and the store is unchanged. -/
theorem C5_witness :
    add_schedule_item_to_itinerary dbA 1 1 itcBad = .error .badRequest ∧
    applyOperation (.addItem 1 1 itcBad) dbA = dbA :=
  (C5_window_enforced_on_add_and_update dbA 1 1 0 itcBad
      { scheduledDate := 0, scheduledTime := 0 } itinA 20).1
    (by decide) (by decide) (by decide)

/-- C4: the sent-opportunity rows only grow across an Opportunity Alert
run; every row the run adds names a place that was neither already sent to
that user nor present as a schedule item in any of the itineraries of the user;
and no other modelled operation of the system creates, updates or deletes
sent-opportunity rows. -/
theorem C4_exclusion_monotone (env : OppEnv) (today : Int) (db : DB) :
    (∀ x ∈ db.sentOpportunities,
        x ∈ (check_for_opportunities env today db).1.sentOpportunities) ∧
    (∀ x ∈ (check_for_opportunities env today db).1.sentOpportunities,
        x ∉ db.sentOpportunities →
        (∀ y ∈ db.sentOpportunities, y.userId = x.userId → y.placeId ≠ x.placeId) ∧
        (∀ s ∈ db.scheduleItems, isUserItem db x.userId s = true →
          s.placeId ≠ x.placeId)) ∧
    (∀ op db2, isOpportunityOp op = false →
        (applyOperation op db2).sentOpportunities = db2.sentOpportunities) := by
  rcases opp_foldl_shape env today (db.users.filter (oppEligibleUser db today)) (db, [])
    with ⟨_, _, _, ext, hext, hprop⟩
  have hext2 : (check_for_opportunities env today db).1.sentOpportunities =
      db.sentOpportunities ++ ext := hext
  refine ⟨?_, ?_, fun op db2 hop => applyOperation_sentOps op hop db2⟩
  · intro x hx
    rw [hext2]
    exact List.mem_append.2 (Or.inl hx)
  · intro x hx hnot
    rw [hext2] at hx
    rcases List.mem_append.1 hx with h | h
    · exact absurd h hnot
    · have hxs := hprop x h
      constructor
      · intro y hy hyu hyp
        apply hxs
        unfold seenPlaceIds
        apply List.mem_append.2
        left
        apply List.mem_map.2
        exact ⟨y, List.mem_filter.2 ⟨hy, beq_iff_eq.2 hyu⟩, hyp⟩
      · intro s hs hsu hsp
        apply hxs
        unfold seenPlaceIds
        apply List.mem_append.2
        right
        apply List.mem_map.2
        exact ⟨s, List.mem_filter.2 ⟨hs, hsu⟩, hsp⟩

/-- witness for C4: on the concrete store the previously sent row survives
the run, the newly added row names a place distinct from every previously
sent and every planned place, and a weather run leaves the rows alone. -/
theorem C4_witness :
    ({ userId := 1, placeId := "plOld" } : SentOpportunity) ∈
      (check_for_opportunities envOppA 10 dbA).1.sentOpportunities ∧
    ("plOld" : String) ≠ "plX" ∧ ("plA" : String) ≠ "plX" ∧
    (applyOperation (.realTimeTips envWA ⟨10, 720⟩) dbA).sentOpportunities =
      dbA.sentOpportunities := by
  have h := C4_exclusion_monotone envOppA 10 dbA
  refine ⟨h.1 { userId := 1, placeId := "plOld" } (by decide), ?_, ?_, ?_⟩
  · exact (h.2.1 { userId := 1, placeId := "plX" } (by decide) (by decide)).1
      { userId := 1, placeId := "plOld" } (by decide) (by decide)
  · exact (h.2.1 { userId := 1, placeId := "plX" } (by decide) (by decide)).2
      itemA (by decide) (by decide)
  · exact h.2.2 (.realTimeTips envWA ⟨10, 720⟩) dbA (by decide)

/-- C8: the chosen opportunity is a searched candidate outside the
exclusion set rated at least 4.5 and maximal among all such candidates
(first encountered wins on ties, by the stable descending sort); when one
is chosen the per-user step sends its push and appends the notification
row and the sent-opportunity row in the same commit; when the step changes
anything at all it is exactly that commit, and with no eligible candidate
every one is excluded or rated below the floor. -/
theorem C8_pick_highest_rated_and_commit :
    (∀ ps seen pl, bestOpportunity ps seen = some pl →
       pl ∈ ps ∧ seen.contains pl.placeId = false ∧ qualityFloor ≤ ratingOf pl ∧
       ∀ q ∈ ps, seen.contains q.placeId = false → qualityFloor ≤ ratingOf q →
         ratingOf q ≤ ratingOf pl) ∧
    (∀ ps seen, bestOpportunity ps seen = none →
       ∀ q ∈ ps, seen.contains q.placeId = true ∨ ratingOf q < qualityFloor) ∧
    (∀ env today acc u, opportunityUserStep env today acc u = acc ∨
       ∃ item c pl,
         firstItemToday acc.1 u.id today = some item ∧
         env.coords item.placeId = some c ∧
         (env.textSearch (searchTerms u) c).statusCode = 200 ∧
         bestOpportunity (env.textSearch (searchTerms u) c).results
           (seenPlaceIds acc.1 u.id) = some pl ∧
         opportunityUserStep env today acc u =
           ({ acc.1 with
               notifications := acc.1.notifications ++
                 [{ userId := u.id, title := oppTitle, body := oppBody pl }]
               sentOpportunities := acc.1.sentOpportunities ++
                 [{ userId := u.id, placeId := pl.placeId }] },
            acc.2 ++ [oppPush u pl])) := by
  refine ⟨?_, fun ps seen h => bestOpportunity_none h,
    fun env today acc u => oppStep_shape env today acc u⟩
  intro ps seen pl h
  have hpred := bestOpportunity_pred h
  rw [opportunityPred, Bool.and_eq_true] at hpred
  have hcf := hpred.1
  rw [Bool.not_eq_true'] at hcf
  exact ⟨bestOpportunity_mem h, hcf, of_decide_eq_true hpred.2, bestOpportunity_max h⟩

/-- witness for C8: among candidates rated 4, 5, 5 with the 5-rated `b`
excluded, the pick is the first remaining 5-rated candidate `c`; it is a
candidate, unexcluded, at or above the floor, and at least as well rated
as the other eligible candidate; with every candidate excluded or below
the floor nothing qualifies; and on the concrete store the user step
appends exactly the two rows and the push. -/
theorem C8_witness :
    ({ placeId := "c", name := "C", rating := some 5 } : Place) ∈ psW ∧
    List.contains ["b"] "c" = false ∧
    qualityFloor ≤ ratingOf { placeId := "c", name := "C", rating := some 5 } ∧
    ratingOf ({ placeId := "c", name := "C", rating := some 5 } : Place) ≤
      ratingOf { placeId := "c", name := "C", rating := some 5 } ∧
    (List.contains ["b", "d"] "b" = true ∨
      ratingOf { placeId := "b", name := "B", rating := some 5 } < qualityFloor) ∧
    (List.contains ["b", "d"] "d" = true ∨
      ratingOf { placeId := "d", name := "D", rating := some 3 } < qualityFloor) ∧
    opportunityUserStep envOppA 10 (dbA, []) userA =
      ({ dbA with
          notifications := [{ userId := 1, title := oppTitle, body := oppBody gemPlace }]
          sentOpportunities := dbA.sentOpportunities ++ [{ userId := 1, placeId := "plX" }] },
       [oppPush userA gemPlace]) := by
  have h1 := C8_pick_highest_rated_and_commit.1 psW ["b"]
    { placeId := "c", name := "C", rating := some 5 } (by decide)
  have h2 := C8_pick_highest_rated_and_commit.2.1
    [{ placeId := "b", name := "B", rating := some 5 },
     { placeId := "d", name := "D", rating := some 3 }] ["b", "d"]
    (by decide)
  refine ⟨h1.1, h1.2.1, h1.2.2.1, ?_, ?_, ?_, ?_⟩
  · exact h1.2.2.2 { placeId := "c", name := "C", rating := some 5 }
      (by decide) (by decide) (by decide)
  · exact h2 { placeId := "b", name := "B", rating := some 5 } (by decide)
  · exact h2 { placeId := "d", name := "D", rating := some 3 } (by decide)
  · rcases C8_pick_highest_rated_and_commit.2.2 envOppA 10 (dbA, []) userA with heq | h3
    · exact absurd heq (by decide)
    · rcases h3 with ⟨item, c, pl, hitem, hc, hst, hpl, heq⟩
      have hceq : c = { lat := 1, lng := 2 } := Option.some.inj hc.symm
      subst hceq
      rw [heq]
      have hz : bestOpportunity (envOppA.textSearch (searchTerms userA)
          { lat := 1, lng := 2 }).results
          (seenPlaceIds (dbA, ([] : List Push)).1 userA.id) = some gemPlace := by decide
      rw [hz] at hpl
      have hpleq : pl = gemPlace := (Option.some.inj hpl).symm
      rw [hpleq]
      rfl

end InTra

